import Mathlib

/-!
Verification of the chaos-lab simulation core.

The source is TypeScript: three classes `LorenzSystem`, `RosslerSystem` and
`DoublePendulumSystem`, each advancing a chaotic ODE by RK4, keeping a trail of
positions, co-evolving a tangent vector for a Lyapunov-exponent estimate, and
sampling Poincaré-section crossings.

Number model: a JavaScript `number` is embedded as `Option ℝ`.  `some x` is a
finite double idealized as the real `x` (IEEE rounding and overflow are not
modelled); `none` collapses the three non-finite values `NaN`, `Infinity` and
`-Infinity`.  Every arithmetic operation below maps non-finite operands to a
non-finite result; this agrees with JS semantics on all operand shapes the
translated code can produce (the code never divides by `±Infinity`, never
compares a non-finite value except under an `isFinite` guard that already
rejects it, and the only `%` it uses has the finite literal `2 * π` as
divisor).  `Math.random()` results are passed as explicit arguments.
-/

/-- A JavaScript `number`: `some x` is a finite double idealized as a real,
`none` is a non-finite value (`NaN` / `Infinity` / `-Infinity` collapsed). -/
abbrev JsNum := Option ℝ

/-- Embed a finite JS number literal. -/
abbrev jn (x : ℝ) : JsNum := some x

/-- JS `isFinite`. -/
def isFin : JsNum → Bool
  | some _ => true
  | none => false

/-- JS addition. -/
def jadd : JsNum → JsNum → JsNum
  | some a, some b => some (a + b)
  | _, _ => none

/-- JS subtraction. -/
def jsub : JsNum → JsNum → JsNum
  | some a, some b => some (a - b)
  | _, _ => none

/-- JS multiplication. -/
def jmul : JsNum → JsNum → JsNum
  | some a, some b => some (a * b)
  | _, _ => none

/-- JS unary minus. -/
def jneg : JsNum → JsNum
  | some a => some (-a)
  | none => none

/-- JS division: division by `0` yields a non-finite value (`±Infinity` or
`NaN`), and a non-finite operand yields a non-finite result (the source never
divides by `±Infinity`, so the collapse is faithful there). -/
noncomputable def jdiv : JsNum → JsNum → JsNum
  | some a, some b => if b = 0 then none else some (a / b)
  | _, _ => none

instance : Add JsNum := ⟨jadd⟩
instance : Sub JsNum := ⟨jsub⟩
instance : Mul JsNum := ⟨jmul⟩
instance : Neg JsNum := ⟨jneg⟩
noncomputable instance : Div JsNum := ⟨jdiv⟩

/-- JS `Math.abs`. -/
def jabs : JsNum → JsNum
  | some a => some |a|
  | none => none

/-- JS `Math.sqrt` (`NaN` on negative input). -/
noncomputable def jsqrt : JsNum → JsNum
  | some a => if a < 0 then none else some (Real.sqrt a)
  | none => none

/-- JS `Math.log` (`-Infinity` at `0`, `NaN` on negative input: both map to
the non-finite value). -/
noncomputable def jlog : JsNum → JsNum
  | some a => if a ≤ 0 then none else some (Real.log a)
  | none => none

/-- JS `Math.sin`. -/
noncomputable def jsin : JsNum → JsNum
  | some a => some (Real.sin a)
  | none => none

/-- JS `Math.cos`. -/
noncomputable def jcos : JsNum → JsNum
  | some a => some (Real.cos a)
  | none => none

/-- Truncation toward zero, used by the JS `%` operator. -/
noncomputable def jsTrunc (x : ℝ) : ℝ := if 0 ≤ x then (⌊x⌋ : ℝ) else (⌈x⌉ : ℝ)

/-- JS remainder `a % b` (truncated division, sign of the dividend; `NaN` when
the divisor is `0` or an operand is non-finite — the source only uses a finite
nonzero divisor). -/
noncomputable def jmod : JsNum → JsNum → JsNum
  | some a, some b => if b = 0 then none else some (a - b * jsTrunc (a / b))
  | _, _ => none

/-- JS `<` as used in the source: comparisons against non-finite values only
occur where an `isFinite` test already rejects them or where the value is `NaN`
(for which JS comparison is `false`, as here). -/
noncomputable def jlt : JsNum → JsNum → Bool
  | some a, some b => decide (a < b)
  | _, _ => false

/-- JS `<=`, with the same proviso as `jlt`. -/
noncomputable def jle : JsNum → JsNum → Bool
  | some a, some b => decide (a ≤ b)
  | _, _ => false

/-- The 3-component vector of JS numbers (`three.js` `Vector3`). -/
structure JVec3 where
  x : JsNum
  y : JsNum
  z : JsNum

/-- The 2-component vector of JS numbers (`three.js` `Vector2`). -/
structure JVec2 where
  x : JsNum
  y : JsNum

/-- All three components are finite. -/
def JVec3.IsFinite (v : JVec3) : Prop :=
  isFin v.x = true ∧ isFin v.y = true ∧ isFin v.z = true

/-- `Vector3.length()`: the Euclidean norm. -/
noncomputable def vec3Norm (v : JVec3) : JsNum :=
  jsqrt (v.x * v.x + v.y * v.y + v.z * v.z)

/-- Coefficients of the Lorenz system (`LorenzParams` in the source). -/
structure LorenzParams where
  sigma : JsNum
  rho : JsNum
  beta : JsNum

/-- All coefficients are finite. -/
def LorenzParams.IsFinite (p : LorenzParams) : Prop :=
  isFin p.sigma = true ∧ isFin p.rho = true ∧ isFin p.beta = true

/-- A caller-supplied update accepted by `updateParams` (the source type is
`Partial<LorenzParams>`): each field is either absent or a value. -/
structure LorenzParamsUpdate where
  sigma : Option JsNum
  rho : Option JsNum
  beta : Option JsNum

/-- The mutable state of a `LorenzSystem` instance: one field per class field
of the source (the constant `dt` and the literals `RENORM_INTERVAL` and
`MAX_POINCARE` are definitions below). -/
structure LorenzSystem where
  points : List JVec3
  position : JVec3
  params : LorenzParams
  perturbation : JVec3
  lyapunovSum : JsNum
  lyapunovSteps : ℕ
  lyapunovExponent : JsNum
  stepsSinceRenorm : ℕ
  prevZ : JsNum
  prevDz : JsNum
  poincarePoints : List (JsNum × JsNum)

namespace LorenzSystem

/-- `this.dt = 0.01`, never reassigned. -/
def dt0 : ℝ := 0.01

/-- `RENORM_INTERVAL = 10`. -/
def RENORM_INTERVAL : ℕ := 10

/-- `MAX_POINCARE = 5000`. -/
def MAX_POINCARE : ℕ := 5000

/-- The canonical safe value `(1, 1, 1)` installed by the stability guard. -/
def safePos : JVec3 := ⟨jn 1, jn 1, jn 1⟩

/-- `derivatives(x, y, z)`: the Lorenz right-hand side. -/
def derivatives (p : LorenzParams) (x y z : JsNum) : JVec3 :=
  ⟨p.sigma * (y - x), x * (p.rho - z) - y, x * y - p.beta * z⟩

/-- `jacobianApply(x, y, z, dx, dy, dz)`: the Lorenz Jacobian at `(x, y, z)`
applied to `(dx, dy, dz)`. -/
def jacobianApply (p : LorenzParams) (x y z dx dy dz : JsNum) : JVec3 :=
  ⟨p.sigma * (dy - dx), (p.rho - z) * dx - dy - x * dz,
   y * dx + x * dy - p.beta * dz⟩

/-- The RK4 update of the trajectory performed by `step` (source lines
552-565). -/
noncomputable def rk4Position (p : LorenzParams) (dt : JsNum) (pos : JVec3) : JVec3 :=
  let k1 := derivatives p pos.x pos.y pos.z
  let k2 := derivatives p (pos.x + jn 0.5 * dt * k1.x) (pos.y + jn 0.5 * dt * k1.y)
    (pos.z + jn 0.5 * dt * k1.z)
  let k3 := derivatives p (pos.x + jn 0.5 * dt * k2.x) (pos.y + jn 0.5 * dt * k2.y)
    (pos.z + jn 0.5 * dt * k2.z)
  let k4 := derivatives p (pos.x + dt * k3.x) (pos.y + dt * k3.y) (pos.z + dt * k3.z)
  ⟨pos.x + dt / jn 6 * (k1.x + jn 2 * k2.x + jn 2 * k3.x + k4.x),
   pos.y + dt / jn 6 * (k1.y + jn 2 * k2.y + jn 2 * k3.y + k4.y),
   pos.z + dt / jn 6 * (k1.z + jn 2 * k2.z + jn 2 * k3.z + k4.z)⟩

/-- The divergence test of the stability guard (source lines 568-569): some
component non-finite, or `|x| > 1e6`. -/
noncomputable def guardCond (v : JVec3) : Bool :=
  !(isFin v.x) || !(isFin v.y) || !(isFin v.z) || jlt (jn 1e6) (jabs v.x)

/-- The stability guard: reset to `(1, 1, 1)` on divergence, else keep. -/
noncomputable def applyGuard (v : JVec3) : JVec3 :=
  if guardCond v then safePos else v

/-- One Euler step of the tangent vector (source lines 576-582), evaluated at
the post-guard position. -/
noncomputable def tangentEuler (p : LorenzParams) (pos pert : JVec3) (dt : JsNum) : JVec3 :=
  let j := jacobianApply p pos.x pos.y pos.z pert.x pert.y pert.z
  ⟨pert.x + j.x * dt, pert.y + j.y * dt, pert.z + j.z * dt⟩

/-- The accumulator fields touched by the renormalization block of `step`. -/
structure LyapAcc where
  sum : JsNum
  steps : ℕ
  expo : JsNum
  pert : JVec3
  ssr : ℕ

/-- The Poincaré-crossing test of `step` (source line 599): `prevDz > 0`,
`currentDz <= 0` and more than 100 trail points. -/
noncomputable def poincareCond (prevDz currentDz : JsNum) (trailLen : ℕ) : Bool :=
  jlt (jn 0) prevDz && jle currentDz (jn 0) && decide (100 < trailLen)

/-- `LorenzSystem.step(speed)` (source lines 547-610), as a state transformer;
the returned position is the new `position` field. -/
noncomputable def step (sys : LorenzSystem) (speed : JsNum) : LorenzSystem :=
  let dt := jn dt0 * speed
  let pos2 := applyGuard (rk4Position sys.params dt sys.position)
  let points1 := sys.points ++ [pos2]
  let pert1 := tangentEuler sys.params pos2 sys.perturbation dt
  let ssr1 := sys.stepsSinceRenorm + 1
  let lyap : LyapAcc :=
    if RENORM_INTERVAL ≤ ssr1 then
      let norm := vec3Norm pert1
      if jlt (jn 0) norm && isFin norm then
        let sum1 := sys.lyapunovSum + jlog norm
        let steps1 := sys.lyapunovSteps + 1
        ⟨sum1, steps1,
         jdiv sum1 (jn ((steps1 : ℝ) * (RENORM_INTERVAL : ℝ) * dt0)),
         ⟨jdiv pert1.x norm, jdiv pert1.y norm, jdiv pert1.z norm⟩, 0⟩
      else ⟨sys.lyapunovSum, sys.lyapunovSteps, sys.lyapunovExponent, pert1, 0⟩
    else ⟨sys.lyapunovSum, sys.lyapunovSteps, sys.lyapunovExponent, pert1, ssr1⟩
  let currentDz := pos2.z - sys.prevZ
  let poinc :=
    if poincareCond sys.prevDz currentDz points1.length then
      let pp := sys.poincarePoints ++ [(pos2.x, pos2.y)]
      if MAX_POINCARE < pp.length then pp.drop (pp.length - MAX_POINCARE) else pp
    else sys.poincarePoints
  { points := points1
    position := pos2
    params := sys.params
    perturbation := lyap.pert
    lyapunovSum := lyap.sum
    lyapunovSteps := lyap.steps
    lyapunovExponent := lyap.expo
    stepsSinceRenorm := lyap.ssr
    prevZ := pos2.z
    prevDz := currentDz
    poincarePoints := poinc }

/-- `LorenzSystem.reset(initialPosition)` (source lines 612-623). -/
def reset (sys : LorenzSystem) (initialPosition : JVec3) : LorenzSystem :=
  { points := [initialPosition]
    position := initialPosition
    params := sys.params
    perturbation := ⟨jn 1, jn 0, jn 0⟩
    lyapunovSum := jn 0
    lyapunovSteps := 0
    lyapunovExponent := jn 0
    stepsSinceRenorm := 0
    prevZ := initialPosition.z
    prevDz := jn 0
    poincarePoints := [] }

/-- `LorenzSystem.updateParams(params)` (source lines 625-627): spread-merge of
the supplied fields over the current coefficients. -/
def updateParams (sys : LorenzSystem) (q : LorenzParamsUpdate) : LorenzSystem :=
  { sys with params :=
      ⟨q.sigma.getD sys.params.sigma, q.rho.getD sys.params.rho,
       q.beta.getD sys.params.beta⟩ }

/-- `LorenzSystem.trimTrail(maxLength)` (source lines 630-634): in-place
front-trim keeping the newest `maxLength` points. -/
def trimTrail (sys : LorenzSystem) (maxLength : ℕ) : LorenzSystem :=
  if maxLength < sys.points.length then
    { sys with points := sys.points.drop (sys.points.length - maxLength) }
  else sys

/-- `LorenzSystem.perturb(amount)` (source lines 649-653); the three
`Math.random()` draws are passed explicitly. -/
def perturb (sys : LorenzSystem) (amount r1 r2 r3 : JsNum) : LorenzSystem :=
  { sys with position :=
      ⟨sys.position.x + (r1 - jn 0.5) * amount * jn 2,
       sys.position.y + (r2 - jn 0.5) * amount * jn 2,
       sys.position.z + (r3 - jn 0.5) * amount * jn 2⟩ }

/-- The constructor (source lines 520-525). -/
def init (initialPosition : JVec3) (p : LorenzParams) : LorenzSystem :=
  { points := [initialPosition]
    position := initialPosition
    params := p
    perturbation := ⟨jn 1, jn 0, jn 0⟩
    lyapunovSum := jn 0
    lyapunovSteps := 0
    lyapunovExponent := jn 0
    stepsSinceRenorm := 0
    prevZ := initialPosition.z
    prevDz := jn 0
    poincarePoints := [] }

end LorenzSystem

/-- Coefficients of the Rössler system (`RosslerParams` in the source). -/
structure RosslerParams where
  a : JsNum
  b : JsNum
  c : JsNum

/-- All coefficients are finite. -/
def RosslerParams.IsFinite (p : RosslerParams) : Prop :=
  isFin p.a = true ∧ isFin p.b = true ∧ isFin p.c = true

/-- A caller-supplied update accepted by `RosslerSystem.updateParams`. -/
structure RosslerParamsUpdate where
  a : Option JsNum
  b : Option JsNum
  c : Option JsNum

/-- The mutable state of a `RosslerSystem` instance (source lines 9-33 of the
Rössler module). -/
structure RosslerSystem where
  points : List JVec3
  position : JVec3
  params : RosslerParams
  perturbation : JVec3
  lyapunovSum : JsNum
  lyapunovSteps : ℕ
  lyapunovExponent : JsNum
  stepsSinceRenorm : ℕ
  prevY : JsNum
  poincarePoints : List (JsNum × JsNum)

namespace RosslerSystem

/-- `this.dt = 0.01`, never reassigned. -/
def dt0 : ℝ := 0.01

/-- `RENORM_INTERVAL = 10`. -/
def RENORM_INTERVAL : ℕ := 10

/-- `MAX_POINCARE = 5000`. -/
def MAX_POINCARE : ℕ := 5000

/-- The canonical safe value `(1, 1, 1)` installed by the stability guard. -/
def safePos : JVec3 := ⟨jn 1, jn 1, jn 1⟩

/-- `derivatives(x, y, z)`: the Rössler right-hand side. -/
def derivatives (p : RosslerParams) (x y z : JsNum) : JVec3 :=
  ⟨-y - z, x + p.a * y, p.b + z * (x - p.c)⟩

/-- `jacobianApply(x, _y, z, dx, dy, dz)`. -/
def jacobianApply (p : RosslerParams) (x z dx dy dz : JsNum) : JVec3 :=
  ⟨-dy - dz, dx + p.a * dy, z * dx + (x - p.c) * dz⟩

/-- The RK4 update of the trajectory performed by `step` (source lines 60-73 of
the Rössler module). -/
noncomputable def rk4Position (p : RosslerParams) (dt : JsNum) (pos : JVec3) : JVec3 :=
  let k1 := derivatives p pos.x pos.y pos.z
  let k2 := derivatives p (pos.x + jn 0.5 * dt * k1.x) (pos.y + jn 0.5 * dt * k1.y)
    (pos.z + jn 0.5 * dt * k1.z)
  let k3 := derivatives p (pos.x + jn 0.5 * dt * k2.x) (pos.y + jn 0.5 * dt * k2.y)
    (pos.z + jn 0.5 * dt * k2.z)
  let k4 := derivatives p (pos.x + dt * k3.x) (pos.y + dt * k3.y) (pos.z + dt * k3.z)
  ⟨pos.x + dt / jn 6 * (k1.x + jn 2 * k2.x + jn 2 * k3.x + k4.x),
   pos.y + dt / jn 6 * (k1.y + jn 2 * k2.y + jn 2 * k3.y + k4.y),
   pos.z + dt / jn 6 * (k1.z + jn 2 * k2.z + jn 2 * k3.z + k4.z)⟩

/-- The divergence test of the stability guard (source lines 76-77 of the
Rössler module): some component non-finite, or `|x| > 1e6`. -/
noncomputable def guardCond (v : JVec3) : Bool :=
  !(isFin v.x) || !(isFin v.y) || !(isFin v.z) || jlt (jn 1e6) (jabs v.x)

/-- The stability guard: reset to `(1, 1, 1)` on divergence, else keep. -/
noncomputable def applyGuard (v : JVec3) : JVec3 :=
  if guardCond v then safePos else v

/-- One Euler step of the tangent vector (source lines 84-90 of the Rössler
module), evaluated at the post-guard position. -/
noncomputable def tangentEuler (p : RosslerParams) (pos pert : JVec3) (dt : JsNum) : JVec3 :=
  let j := jacobianApply p pos.x pos.z pert.x pert.y pert.z
  ⟨pert.x + j.x * dt, pert.y + j.y * dt, pert.z + j.z * dt⟩

/-- The accumulator fields touched by the renormalization block of `step`. -/
structure LyapAcc where
  sum : JsNum
  steps : ℕ
  expo : JsNum
  pert : JVec3
  ssr : ℕ

/-- The Poincaré-crossing test of `step` (source line 106 of the Rössler
module): `prevY < 0`, `y >= 0` and more than 100 trail points. -/
noncomputable def poincareCond (prevY newY : JsNum) (trailLen : ℕ) : Bool :=
  jlt prevY (jn 0) && jle (jn 0) newY && decide (100 < trailLen)

/-- `RosslerSystem.step(speed)` (source lines 55-115 of the Rössler module). -/
noncomputable def step (sys : RosslerSystem) (speed : JsNum) : RosslerSystem :=
  let dt := jn dt0 * speed
  let pos2 := applyGuard (rk4Position sys.params dt sys.position)
  let points1 := sys.points ++ [pos2]
  let pert1 := tangentEuler sys.params pos2 sys.perturbation dt
  let ssr1 := sys.stepsSinceRenorm + 1
  let lyap : LyapAcc :=
    if RENORM_INTERVAL ≤ ssr1 then
      let norm := vec3Norm pert1
      if jlt (jn 0) norm && isFin norm then
        let sum1 := sys.lyapunovSum + jlog norm
        let steps1 := sys.lyapunovSteps + 1
        ⟨sum1, steps1,
         jdiv sum1 (jn ((steps1 : ℝ) * (RENORM_INTERVAL : ℝ) * dt0)),
         ⟨jdiv pert1.x norm, jdiv pert1.y norm, jdiv pert1.z norm⟩, 0⟩
      else ⟨sys.lyapunovSum, sys.lyapunovSteps, sys.lyapunovExponent, pert1, 0⟩
    else ⟨sys.lyapunovSum, sys.lyapunovSteps, sys.lyapunovExponent, pert1, ssr1⟩
  let poinc :=
    if poincareCond sys.prevY pos2.y points1.length then
      let pp := sys.poincarePoints ++ [(pos2.x, pos2.z)]
      if MAX_POINCARE < pp.length then pp.drop (pp.length - MAX_POINCARE) else pp
    else sys.poincarePoints
  { points := points1
    position := pos2
    params := sys.params
    perturbation := lyap.pert
    lyapunovSum := lyap.sum
    lyapunovSteps := lyap.steps
    lyapunovExponent := lyap.expo
    stepsSinceRenorm := lyap.ssr
    prevY := pos2.y
    poincarePoints := poinc }

/-- `RosslerSystem.reset(initialPosition)` (source lines 117-127 of the Rössler
module). -/
def reset (sys : RosslerSystem) (initialPosition : JVec3) : RosslerSystem :=
  { points := [initialPosition]
    position := initialPosition
    params := sys.params
    perturbation := ⟨jn 1, jn 0, jn 0⟩
    lyapunovSum := jn 0
    lyapunovSteps := 0
    lyapunovExponent := jn 0
    stepsSinceRenorm := 0
    prevY := initialPosition.y
    poincarePoints := [] }

/-- `RosslerSystem.updateParams(params)` (source lines 129-131 of the Rössler
module). -/
def updateParams (sys : RosslerSystem) (q : RosslerParamsUpdate) : RosslerSystem :=
  { sys with params :=
      ⟨q.a.getD sys.params.a, q.b.getD sys.params.b, q.c.getD sys.params.c⟩ }

/-- `RosslerSystem.trimTrail(maxLength)` (source lines 134-138 of the Rössler
module). -/
def trimTrail (sys : RosslerSystem) (maxLength : ℕ) : RosslerSystem :=
  if maxLength < sys.points.length then
    { sys with points := sys.points.drop (sys.points.length - maxLength) }
  else sys

/-- `RosslerSystem.perturb(amount)` (source lines 152-156 of the Rössler
module). -/
def perturb (sys : RosslerSystem) (amount r1 r2 r3 : JsNum) : RosslerSystem :=
  { sys with position :=
      ⟨sys.position.x + (r1 - jn 0.5) * amount * jn 2,
       sys.position.y + (r2 - jn 0.5) * amount * jn 2,
       sys.position.z + (r3 - jn 0.5) * amount * jn 2⟩ }

/-- The constructor (source lines 28-33 of the Rössler module). -/
def init (initialPosition : JVec3) (p : RosslerParams) : RosslerSystem :=
  { points := [initialPosition]
    position := initialPosition
    params := p
    perturbation := ⟨jn 1, jn 0, jn 0⟩
    lyapunovSum := jn 0
    lyapunovSteps := 0
    lyapunovExponent := jn 0
    stepsSinceRenorm := 0
    prevY := initialPosition.y
    poincarePoints := [] }

end RosslerSystem

/-- Parameters of the double pendulum (`DoublePendulumParams` in the source). -/
structure DoublePendulumParams where
  mass1 : JsNum
  mass2 : JsNum
  length1 : JsNum
  length2 : JsNum
  gravity : JsNum
  damping : JsNum

/-- All parameters are finite. -/
def DoublePendulumParams.IsFinite (p : DoublePendulumParams) : Prop :=
  isFin p.mass1 = true ∧ isFin p.mass2 = true ∧ isFin p.length1 = true ∧
  isFin p.length2 = true ∧ isFin p.gravity = true ∧ isFin p.damping = true

/-- A caller-supplied update accepted by `DoublePendulumSystem.updateParams`. -/
structure DoublePendulumParamsUpdate where
  mass1 : Option JsNum
  mass2 : Option JsNum
  length1 : Option JsNum
  length2 : Option JsNum
  gravity : Option JsNum
  damping : Option JsNum

/-- The phase state of the pendulum (`PendulumState` in the source). -/
structure PendulumState where
  theta1 : JsNum
  theta2 : JsNum
  omega1 : JsNum
  omega2 : JsNum

/-- All four components are finite. -/
def PendulumState.IsFinite (s : PendulumState) : Prop :=
  isFin s.theta1 = true ∧ isFin s.theta2 = true ∧
  isFin s.omega1 = true ∧ isFin s.omega2 = true

/-- The pair of Cartesian joint positions computed by `calculatePositions`. -/
structure PendPositions where
  p1 : JVec2
  p2 : JVec2

/-- The mutable state of a `DoublePendulumSystem` instance (source lines
163-181 of the pendulum module). -/
structure DoublePendulumSystem where
  points : List JVec3
  positions : List PendPositions
  state : PendulumState
  params : DoublePendulumParams
  pertState : PendulumState
  lyapunovSum : JsNum
  lyapunovSteps : ℕ
  lyapunovExponent : JsNum
  stepsSinceRenorm : ℕ
  prevTheta2 : JsNum
  poincarePoints : List (JsNum × JsNum)

namespace DoublePendulumSystem

/-- `this.dt = 0.005`, never reassigned. -/
def dt0 : ℝ := 0.005

/-- `RENORM_INTERVAL = 20`. -/
def RENORM_INTERVAL : ℕ := 20

/-- `MAX_POINCARE = 5000`. -/
def MAX_POINCARE : ℕ := 5000

/-- The finite-difference offset `eps = 1e-7` of the tangent update. -/
def epsFD : ℝ := 1e-7

/-- The canonical safe value installed by the stability guard:
`theta1 = theta2 = π/2`, `omega1 = omega2 = 0`. -/
noncomputable def safeState : PendulumState :=
  ⟨jn (Real.pi / 2), jn (Real.pi / 2), jn 0, jn 0⟩

/-- `calculatePositions()` (source lines 196-210 of the pendulum module): the
Cartesian positions of the two bobs derived from angles and lengths. -/
noncomputable def calculatePositions (p : DoublePendulumParams)
    (s : PendulumState) : PendPositions :=
  let p1 : JVec2 := ⟨p.length1 * jsin s.theta1, -(p.length1 * jcos s.theta1)⟩
  let p2 : JVec2 := ⟨p1.x + p.length2 * jsin s.theta2, p1.y - p.length2 * jcos s.theta2⟩
  ⟨p1, p2⟩

/-- The trail point stored for a pair of joint positions: the second bob with
`z = 0`. -/
def toTrailPoint (ps : PendPositions) : JVec3 := ⟨ps.p2.x, ps.p2.y, jn 0⟩

/-- `accelerations(s)` (source lines 213-242 of the pendulum module): the
angular accelerations from the Lagrangian equations, minus damping. -/
noncomputable def accelerations (p : DoublePendulumParams)
    (s : PendulumState) : JsNum × JsNum :=
  let cos12 := jcos (s.theta1 - s.theta2)
  let sin12 := jsin (s.theta1 - s.theta2)
  let sin1 := jsin s.theta1
  let sin2 := jsin s.theta2
  let den1 := (p.mass1 + p.mass2) * p.length1 - p.mass2 * p.length1 * cos12 * cos12
  let den2 := p.length2 / p.length1 * den1
  let num1 := -p.mass2 * p.length1 * s.omega1 * s.omega1 * sin12 * cos12 +
    p.mass2 * p.gravity * sin2 * cos12 +
    p.mass2 * p.length2 * s.omega2 * s.omega2 * sin12 -
    (p.mass1 + p.mass2) * p.gravity * sin1
  let num2 := -p.mass2 * p.length2 * s.omega2 * s.omega2 * sin12 * cos12 +
    (p.mass1 + p.mass2) * p.gravity * sin1 * cos12 +
    (p.mass1 + p.mass2) * p.length1 * s.omega1 * s.omega1 * sin12 -
    (p.mass1 + p.mass2) * p.gravity * sin2
  (num1 / den1 - p.damping * s.omega1, num2 / den2 - p.damping * s.omega2)

/-- `stateDerivative(s)` (source lines 245-253 of the pendulum module). -/
noncomputable def stateDerivative (p : DoublePendulumParams)
    (s : PendulumState) : PendulumState :=
  let a := accelerations p s
  ⟨s.omega1, s.omega2, a.1, a.2⟩

/-- `addStates(a, b, scale)` (source lines 256-263 of the pendulum module). -/
def addStates (a b : PendulumState) (scale : JsNum) : PendulumState :=
  ⟨a.theta1 + b.theta1 * scale, a.theta2 + b.theta2 * scale,
   a.omega1 + b.omega1 * scale, a.omega2 + b.omega2 * scale⟩

/-- The RK4 update of the phase state performed by `step` (source lines
268-277 of the pendulum module). -/
noncomputable def rk4State (p : DoublePendulumParams) (dt : JsNum)
    (s : PendulumState) : PendulumState :=
  let k1 := stateDerivative p s
  let k2 := stateDerivative p (addStates s k1 (jn 0.5 * dt))
  let k3 := stateDerivative p (addStates s k2 (jn 0.5 * dt))
  let k4 := stateDerivative p (addStates s k3 dt)
  ⟨s.theta1 + dt / jn 6 * (k1.theta1 + jn 2 * k2.theta1 + jn 2 * k3.theta1 + k4.theta1),
   s.theta2 + dt / jn 6 * (k1.theta2 + jn 2 * k2.theta2 + jn 2 * k3.theta2 + k4.theta2),
   s.omega1 + dt / jn 6 * (k1.omega1 + jn 2 * k2.omega1 + jn 2 * k3.omega1 + k4.omega1),
   s.omega2 + dt / jn 6 * (k1.omega2 + jn 2 * k2.omega2 + jn 2 * k3.omega2 + k4.omega2)⟩

/-- The divergence test of the stability guard (source lines 280-282 of the
pendulum module): some component non-finite, or `|omega1| > 1e6`, or
`|omega2| > 1e6`. -/
noncomputable def guardCond (s : PendulumState) : Bool :=
  !(isFin s.theta1) || !(isFin s.theta2) || !(isFin s.omega1) || !(isFin s.omega2) ||
  jlt (jn 1e6) (jabs s.omega1) || jlt (jn 1e6) (jabs s.omega2)

/-- The stability guard: reset to the safe state on divergence, else keep. -/
noncomputable def applyGuard (s : PendulumState) : PendulumState :=
  if guardCond s then safeState else s

/-- The finite-difference tangent update of `step` (source lines 293-305 of
the pendulum module), evaluated at the post-guard state. -/
noncomputable def tangentFD (p : DoublePendulumParams) (s2 pert : PendulumState)
    (dt : JsNum) : PendulumState :=
  let perturbed : PendulumState :=
    ⟨s2.theta1 + pert.theta1 * jn epsFD, s2.theta2 + pert.theta2 * jn epsFD,
     s2.omega1 + pert.omega1 * jn epsFD, s2.omega2 + pert.omega2 * jn epsFD⟩
  let dBase := stateDerivative p s2
  let dPert := stateDerivative p perturbed
  ⟨pert.theta1 + (dPert.theta1 - dBase.theta1) / jn epsFD * dt,
   pert.theta2 + (dPert.theta2 - dBase.theta2) / jn epsFD * dt,
   pert.omega1 + (dPert.omega1 - dBase.omega1) / jn epsFD * dt,
   pert.omega2 + (dPert.omega2 - dBase.omega2) / jn epsFD * dt⟩

/-- The Euclidean norm of a tangent state (source lines 309-312 of the
pendulum module). -/
noncomputable def stateNorm (s : PendulumState) : JsNum :=
  jsqrt (s.theta1 * s.theta1 + s.theta2 * s.theta2 +
    s.omega1 * s.omega1 + s.omega2 * s.omega2)

/-- The accumulator fields touched by the renormalization block of `step`. -/
structure LyapAcc where
  sum : JsNum
  steps : ℕ
  expo : JsNum
  pert : PendulumState
  ssr : ℕ

/-- Wrap an angle into `[0, 2π)` the way the source does:
`((a % (2π)) + 2π) % (2π)`. -/
noncomputable def wrapAngle (a : JsNum) : JsNum :=
  jmod (jmod a (jn (2 * Real.pi)) + jn (2 * Real.pi)) (jn (2 * Real.pi))

/-- The Poincaré-crossing test of `step` (source line 329 of the pendulum
module): wrapped `prevTheta2 > π`, wrapped `theta2 <= π`, wrapped
`theta2 < 1`, and more than 100 trail points. -/
noncomputable def poincareCond (prevTheta2 newTheta2 : JsNum) (trailLen : ℕ) : Bool :=
  jlt (jn Real.pi) (wrapAngle prevTheta2) && jle (wrapAngle newTheta2) (jn Real.pi) &&
  jlt (wrapAngle newTheta2) (jn 1) && decide (100 < trailLen)

/-- `DoublePendulumSystem.step(speed)` (source lines 265-338 of the pendulum
module). -/
noncomputable def step (sys : DoublePendulumSystem) (speed : JsNum) : DoublePendulumSystem :=
  let dt := jn dt0 * speed
  let s2 := applyGuard (rk4State sys.params dt sys.state)
  let pos := calculatePositions sys.params s2
  let positions1 := sys.positions ++ [pos]
  let points1 := sys.points ++ [toTrailPoint pos]
  let pert1 := tangentFD sys.params s2 sys.pertState dt
  let ssr1 := sys.stepsSinceRenorm + 1
  let lyap : LyapAcc :=
    if RENORM_INTERVAL ≤ ssr1 then
      let norm := stateNorm pert1
      if jlt (jn 0) norm && isFin norm then
        let sum1 := sys.lyapunovSum + jlog norm
        let steps1 := sys.lyapunovSteps + 1
        ⟨sum1, steps1,
         jdiv sum1 (jn ((steps1 : ℝ) * (RENORM_INTERVAL : ℝ) * dt0)),
         ⟨jdiv pert1.theta1 norm, jdiv pert1.theta2 norm,
          jdiv pert1.omega1 norm, jdiv pert1.omega2 norm⟩, 0⟩
      else ⟨sys.lyapunovSum, sys.lyapunovSteps, sys.lyapunovExponent, pert1, 0⟩
    else ⟨sys.lyapunovSum, sys.lyapunovSteps, sys.lyapunovExponent, pert1, ssr1⟩
  let poinc :=
    if poincareCond sys.prevTheta2 s2.theta2 points1.length then
      let pp := sys.poincarePoints ++ [(s2.theta1, s2.omega1)]
      if MAX_POINCARE < pp.length then pp.drop (pp.length - MAX_POINCARE) else pp
    else sys.poincarePoints
  { points := points1
    positions := positions1
    state := s2
    params := sys.params
    pertState := lyap.pert
    lyapunovSum := lyap.sum
    lyapunovSteps := lyap.steps
    lyapunovExponent := lyap.expo
    stepsSinceRenorm := lyap.ssr
    prevTheta2 := s2.theta2
    poincarePoints := poinc }

/-- `DoublePendulumSystem.reset(initialState)` (source lines 340-352 of the
pendulum module). -/
noncomputable def reset (sys : DoublePendulumSystem)
    (initialState : PendulumState) : DoublePendulumSystem :=
  let pos := calculatePositions sys.params initialState
  { points := [toTrailPoint pos]
    positions := [pos]
    state := initialState
    params := sys.params
    pertState := ⟨jn 1e-6, jn 0, jn 0, jn 0⟩
    lyapunovSum := jn 0
    lyapunovSteps := 0
    lyapunovExponent := jn 0
    stepsSinceRenorm := 0
    prevTheta2 := initialState.theta2
    poincarePoints := [] }

/-- `DoublePendulumSystem.updateParams(params)` (source lines 354-356 of the
pendulum module). -/
def updateParams (sys : DoublePendulumSystem)
    (q : DoublePendulumParamsUpdate) : DoublePendulumSystem :=
  { sys with params :=
      ⟨q.mass1.getD sys.params.mass1, q.mass2.getD sys.params.mass2,
       q.length1.getD sys.params.length1, q.length2.getD sys.params.length2,
       q.gravity.getD sys.params.gravity, q.damping.getD sys.params.damping⟩ }

/-- `DoublePendulumSystem.trimTrail(maxLength)` (source lines 359-365 of the
pendulum module): both `points` and `positions` lose the same front excess,
computed from `points.length`. -/
def trimTrail (sys : DoublePendulumSystem) (maxLength : ℕ) : DoublePendulumSystem :=
  if maxLength < sys.points.length then
    { sys with points := sys.points.drop (sys.points.length - maxLength)
               positions := sys.positions.drop (sys.points.length - maxLength) }
  else sys

/-- `DoublePendulumSystem.perturb(amount)` (source lines 384-389 of the
pendulum module): angles get `amount * 0.3` kicks, angular velocities
`amount * 3` kicks; the four `Math.random()` draws are passed explicitly. -/
def perturb (sys : DoublePendulumSystem)
    (amount r1 r2 r3 r4 : JsNum) : DoublePendulumSystem :=
  { sys with state :=
      ⟨sys.state.theta1 + (r1 - jn 0.5) * amount * jn 0.3,
       sys.state.theta2 + (r2 - jn 0.5) * amount * jn 0.3,
       sys.state.omega1 + (r3 - jn 0.5) * amount * jn 3,
       sys.state.omega2 + (r4 - jn 0.5) * amount * jn 3⟩ }

/-- The constructor (source lines 183-194 of the pendulum module). -/
noncomputable def init (initialState : PendulumState)
    (p : DoublePendulumParams) : DoublePendulumSystem :=
  let pos := calculatePositions p initialState
  { points := [toTrailPoint pos]
    positions := [pos]
    state := initialState
    params := p
    pertState := ⟨jn 1e-6, jn 0, jn 0, jn 0⟩
    lyapunovSum := jn 0
    lyapunovSteps := 0
    lyapunovExponent := jn 0
    stepsSinceRenorm := 0
    prevTheta2 := initialState.theta2
    poincarePoints := [] }

end DoublePendulumSystem

/-- A present-or-absent field of a params update is finite when present. -/
def optJsFin : Option JsNum → Prop
  | none => True
  | some v => isFin v = true

/-- The all-non-finite vector (for example the tangent vector after an update
with a `NaN` time step). -/
def noneV3 : JVec3 := ⟨none, none, none⟩

namespace LorenzSystem

/-- A mutating public-method call on a `LorenzSystem` (the read-only accessors
`getSpeed`, `getParams` and `getPosition` do not write any field and are not
modelled). -/
inductive Op where
  | step (speed : JsNum)
  | reset (pos : JVec3)
  | updateParams (q : LorenzParamsUpdate)
  | trimTrail (k : ℕ)
  | perturb (amount r1 r2 r3 : JsNum)

/-- Execute one public-method call. -/
noncomputable def applyOp (sys : LorenzSystem) : Op → LorenzSystem
  | .step speed => sys.step speed
  | .reset p => sys.reset p
  | .updateParams q => sys.updateParams q
  | .trimTrail k => sys.trimTrail k
  | .perturb a r1 r2 r3 => sys.perturb a r1 r2 r3

/-- The call's arguments are finite (the hypotheses of the spec: finite speed,
finite in-range reset state, finite parameter values, finite perturbation
amounts and random draws). -/
def OpFin : Op → Prop
  | .step speed => isFin speed = true
  | .reset p => p.IsFinite
  | .updateParams q => optJsFin q.sigma ∧ optJsFin q.rho ∧ optJsFin q.beta
  | .trimTrail _ => True
  | .perturb a r1 r2 r3 =>
      isFin a = true ∧ isFin r1 = true ∧ isFin r2 = true ∧ isFin r3 = true

/-- The finiteness invariant claimed by the spec: every trail point is finite,
the current state is finite, and the parameters are finite. -/
def FinInv (sys : LorenzSystem) : Prop :=
  (∀ v ∈ sys.points, v.IsFinite) ∧ sys.position.IsFinite ∧ sys.params.IsFinite

/-- Run a sequence of public-method calls. -/
noncomputable def run (sys : LorenzSystem) (ops : List Op) : LorenzSystem :=
  ops.foldl applyOp sys

/-- Iterate `step` at a fixed speed. -/
noncomputable def stepN (sys : LorenzSystem) (speed : JsNum) : ℕ → LorenzSystem
  | 0 => sys
  | n + 1 => (stepN sys speed n).step speed

end LorenzSystem

namespace RosslerSystem

/-- A mutating public-method call on a `RosslerSystem`. -/
inductive Op where
  | step (speed : JsNum)
  | reset (pos : JVec3)
  | updateParams (q : RosslerParamsUpdate)
  | trimTrail (k : ℕ)
  | perturb (amount r1 r2 r3 : JsNum)

/-- Execute one public-method call. -/
noncomputable def applyOp (sys : RosslerSystem) : Op → RosslerSystem
  | .step speed => sys.step speed
  | .reset p => sys.reset p
  | .updateParams q => sys.updateParams q
  | .trimTrail k => sys.trimTrail k
  | .perturb a r1 r2 r3 => sys.perturb a r1 r2 r3

/-- The call's arguments are finite. -/
def OpFin : Op → Prop
  | .step speed => isFin speed = true
  | .reset p => p.IsFinite
  | .updateParams q => optJsFin q.a ∧ optJsFin q.b ∧ optJsFin q.c
  | .trimTrail _ => True
  | .perturb a r1 r2 r3 =>
      isFin a = true ∧ isFin r1 = true ∧ isFin r2 = true ∧ isFin r3 = true

/-- The finiteness invariant. -/
def FinInv (sys : RosslerSystem) : Prop :=
  (∀ v ∈ sys.points, v.IsFinite) ∧ sys.position.IsFinite ∧ sys.params.IsFinite

/-- Run a sequence of public-method calls. -/
noncomputable def run (sys : RosslerSystem) (ops : List Op) : RosslerSystem :=
  ops.foldl applyOp sys

end RosslerSystem

namespace DoublePendulumSystem

/-- A mutating public-method call on a `DoublePendulumSystem`. -/
inductive Op where
  | step (speed : JsNum)
  | reset (s : PendulumState)
  | updateParams (q : DoublePendulumParamsUpdate)
  | trimTrail (k : ℕ)
  | perturb (amount r1 r2 r3 r4 : JsNum)

/-- Execute one public-method call. -/
noncomputable def applyOp (sys : DoublePendulumSystem) : Op → DoublePendulumSystem
  | .step speed => sys.step speed
  | .reset s => sys.reset s
  | .updateParams q => sys.updateParams q
  | .trimTrail k => sys.trimTrail k
  | .perturb a r1 r2 r3 r4 => sys.perturb a r1 r2 r3 r4

/-- The call's arguments are finite. -/
def OpFin : Op → Prop
  | .step speed => isFin speed = true
  | .reset s => s.IsFinite
  | .updateParams q =>
      optJsFin q.mass1 ∧ optJsFin q.mass2 ∧ optJsFin q.length1 ∧
      optJsFin q.length2 ∧ optJsFin q.gravity ∧ optJsFin q.damping
  | .trimTrail _ => True
  | .perturb a r1 r2 r3 r4 =>
      isFin a = true ∧ isFin r1 = true ∧ isFin r2 = true ∧
      isFin r3 = true ∧ isFin r4 = true

/-- The finiteness invariant: every trail point is finite, the phase state is
finite, and the parameters are finite. -/
def FinInv (sys : DoublePendulumSystem) : Prop :=
  (∀ v ∈ sys.points, v.IsFinite) ∧ sys.state.IsFinite ∧ sys.params.IsFinite

/-- Run a sequence of public-method calls. -/
noncomputable def run (sys : DoublePendulumSystem) (ops : List Op) : DoublePendulumSystem :=
  ops.foldl applyOp sys

end DoublePendulumSystem

/-- A Lorenz instance whose RK4 update sends `y` beyond the 1e6 threshold while
`x` stays small: initial position `(0, 2e6, 0)` with zero coefficients, so the
dynamics reduce to pure `y`-decay. -/
def lorenzC2Sys : LorenzSystem :=
  LorenzSystem.init ⟨jn 0, jn 2e6, jn 0⟩ ⟨jn 0, jn 0, jn 0⟩

/-- A Lorenz instance that the stability guard fires on: initial position
`(2e6, 0, 0)` with zero coefficients is a fixed point of the RK4 update, and
`|x| > 1e6` triggers the reset. -/
def lorenzC3Sys : LorenzSystem :=
  LorenzSystem.init ⟨jn 2e6, jn 0, jn 0⟩ ⟨jn 0, jn 0, jn 0⟩

/-- A Lorenz instance with the classic chaotic coefficients. -/
noncomputable def lorenzClassic : LorenzSystem :=
  LorenzSystem.init ⟨jn 1, jn 1, jn 1⟩ ⟨jn 10, jn 28, jn (8 / 3)⟩

/-- The shape every state of `lorenzClassic` has after at least one `step` with
a non-finite (`NaN`) speed: position pinned at the safe value, tangent vector
all non-finite, Lyapunov accumulators untouched. -/
noncomputable def lorenzNanShape (pts : List JVec3) (ssr : ℕ) : LorenzSystem :=
  { points := pts
    position := LorenzSystem.safePos
    params := ⟨jn 10, jn 28, jn (8 / 3)⟩
    perturbation := noneV3
    lyapunovSum := jn 0
    lyapunovSteps := 0
    lyapunovExponent := jn 0
    stepsSinceRenorm := ssr
    prevZ := jn 1
    prevDz := jn 0
    poincarePoints := [] }

/-- A Rössler instance that the stability guard fires on. -/
def rosslerC2Sys : RosslerSystem :=
  RosslerSystem.init ⟨jn 2e6, jn 0, jn 0⟩ ⟨jn 0, jn 0, jn 0⟩

/-- A pendulum instance whose phase state contains a non-finite angle (for
example after a caller `reset` with `NaN`); the next RK4 update propagates the
non-finite value and the guard must fire. -/
def pendulumNanSys : DoublePendulumSystem :=
  { points := [⟨jn 0, jn (-2), jn 0⟩]
    positions := [⟨⟨jn 0, jn (-1)⟩, ⟨jn 0, jn (-2)⟩⟩]
    state := ⟨none, jn 0, jn 0, jn 0⟩
    params := ⟨jn 1, jn 1, jn 1, jn 1, jn 1, jn 1⟩
    pertState := ⟨jn 1e-6, jn 0, jn 0, jn 0⟩
    lyapunovSum := jn 0
    lyapunovSteps := 0
    lyapunovExponent := jn 0
    stepsSinceRenorm := 0
    prevTheta2 := jn 0
    poincarePoints := [] }

/-- A pendulum instance at the hanging equilibrium with zero gravity and
damping, one step before a renormalization, whose tangent state has norm
`1e-6`; used to exercise the renormalization branch concretely. -/
def pendulumRenormSys : DoublePendulumSystem :=
  { points := [⟨jn 0, jn (-2), jn 0⟩]
    positions := [⟨⟨jn 0, jn (-1)⟩, ⟨jn 0, jn (-2)⟩⟩]
    state := ⟨jn 0, jn 0, jn 0, jn 0⟩
    params := ⟨jn 1, jn 1, jn 1, jn 1, jn 0, jn 0⟩
    pertState := ⟨jn 0, jn 0, jn 1e-6, jn 0⟩
    lyapunovSum := jn 0
    lyapunovSteps := 0
    lyapunovExponent := jn 0
    stepsSinceRenorm := 19
    prevTheta2 := jn 0
    poincarePoints := [] }

/-- A Lorenz instance one step before a renormalization whose tangent vector is
the unit vector `(1, 0, 0)`; with zero coefficients and speed `0` the tangent
is unchanged and the renormalization branch runs on norm `1`. -/
def lorenzRenormSys : LorenzSystem :=
  { points := [⟨jn 1, jn 1, jn 1⟩]
    position := ⟨jn 1, jn 1, jn 1⟩
    params := ⟨jn 0, jn 0, jn 0⟩
    perturbation := ⟨jn 1, jn 0, jn 0⟩
    lyapunovSum := jn 0
    lyapunovSteps := 0
    lyapunovExponent := jn 0
    stepsSinceRenorm := 9
    prevZ := jn 1
    prevDz := jn 0
    poincarePoints := [] }

/-- The Rössler analogue of `lorenzRenormSys`. -/
def rosslerRenormSys : RosslerSystem :=
  { points := [⟨jn 1, jn 1, jn 1⟩]
    position := ⟨jn 1, jn 1, jn 1⟩
    params := ⟨jn 0, jn 0, jn 0⟩
    perturbation := ⟨jn 1, jn 0, jn 0⟩
    lyapunovSum := jn 0
    lyapunovSteps := 0
    lyapunovExponent := jn 0
    stepsSinceRenorm := 9
    prevY := jn 1
    poincarePoints := [] }

/-- A Rössler instance with the classic chaotic coefficients. -/
noncomputable def rosslerClassic : RosslerSystem :=
  RosslerSystem.init ⟨jn 1, jn 1, jn 1⟩ ⟨jn 0.2, jn 0.2, jn 5.7⟩

/-- A pendulum instance with unit masses and lengths, standard gravity, no
damping, at the horizontal initial state used by the source's tests. -/
noncomputable def pendulumClassic : DoublePendulumSystem :=
  DoublePendulumSystem.init ⟨jn (Real.pi / 2), jn (Real.pi / 2), jn 0, jn 0⟩
    ⟨jn 1, jn 1, jn 1, jn 1, jn 9.81, jn 0⟩

/-- A Rössler instance one step before a renormalization whose tangent vector
is entirely non-finite (as it becomes after a `NaN`-speed step), so the
renormalization test fails. -/
def rosslerNanTangentSys : RosslerSystem :=
  { points := [⟨jn 1, jn 1, jn 1⟩]
    position := ⟨jn 1, jn 1, jn 1⟩
    params := ⟨jn 0, jn 0, jn 0⟩
    perturbation := noneV3
    lyapunovSum := jn 0
    lyapunovSteps := 0
    lyapunovExponent := jn 0
    stepsSinceRenorm := 9
    prevY := jn 1
    poincarePoints := [] }

/-- A pendulum instance one step before a renormalization whose tangent state
is entirely non-finite, so the renormalization test fails. -/
def pendulumNanTangentSys : DoublePendulumSystem :=
  { points := [⟨jn 0, jn (-2), jn 0⟩]
    positions := [⟨⟨jn 0, jn (-1)⟩, ⟨jn 0, jn (-2)⟩⟩]
    state := ⟨none, jn 0, jn 0, jn 0⟩
    params := ⟨jn 1, jn 1, jn 1, jn 1, jn 1, jn 1⟩
    pertState := ⟨none, none, none, none⟩
    lyapunovSum := jn 0
    lyapunovSteps := 0
    lyapunovExponent := jn 0
    stepsSinceRenorm := 19
    prevTheta2 := jn 0
    poincarePoints := [] }

/-! Basic computation lemmas for the JS number model. -/

@[simp] theorem isFin_some (a : ℝ) : isFin (some a) = true := rfl

@[simp] theorem isFin_none : isFin (none : JsNum) = false := rfl

@[simp] theorem jsNum_some_add_some (a b : ℝ) :
    (some a + some b : JsNum) = some (a + b) := rfl

@[simp] theorem jsNum_none_add (b : JsNum) : (none + b : JsNum) = none := by
  cases b <;> rfl

@[simp] theorem jsNum_add_none (a : JsNum) : (a + none : JsNum) = none := by
  cases a <;> rfl

@[simp] theorem jsNum_some_sub_some (a b : ℝ) :
    (some a - some b : JsNum) = some (a - b) := rfl

@[simp] theorem jsNum_none_sub (b : JsNum) : (none - b : JsNum) = none := by
  cases b <;> rfl

@[simp] theorem jsNum_sub_none (a : JsNum) : (a - none : JsNum) = none := by
  cases a <;> rfl

@[simp] theorem jsNum_some_mul_some (a b : ℝ) :
    (some a * some b : JsNum) = some (a * b) := rfl

@[simp] theorem jsNum_none_mul (b : JsNum) : (none * b : JsNum) = none := by
  cases b <;> rfl

@[simp] theorem jsNum_mul_none (a : JsNum) : (a * none : JsNum) = none := by
  cases a <;> rfl

@[simp] theorem jsNum_neg_some (a : ℝ) : (-(some a) : JsNum) = some (-a) := rfl

@[simp] theorem jsNum_neg_none : (-(none : JsNum) : JsNum) = none := rfl

theorem jsNum_some_div_some (a b : ℝ) :
    (some a / some b : JsNum) = if b = 0 then none else some (a / b) := rfl

@[simp] theorem jsNum_some_div_some_of_ne (a : ℝ) {b : ℝ} (h : b ≠ 0) :
    (some a / some b : JsNum) = some (a / b) := by
  rw [jsNum_some_div_some, if_neg h]

@[simp] theorem jsNum_some_div_zero (a : ℝ) :
    (some a / some 0 : JsNum) = none := by
  rw [jsNum_some_div_some, if_pos rfl]

@[simp] theorem jsNum_none_div (b : JsNum) : (none / b : JsNum) = none := by
  cases b <;> rfl

@[simp] theorem jsNum_div_none (a : JsNum) : (a / none : JsNum) = none := by
  cases a <;> rfl

@[simp] theorem jabs_some (a : ℝ) : jabs (some a) = some |a| := rfl

@[simp] theorem jabs_none : jabs none = none := rfl

@[simp] theorem jsqrt_none : jsqrt none = none := rfl

@[simp] theorem jsqrt_some_of_nonneg {a : ℝ} (h : 0 ≤ a) :
    jsqrt (some a) = some (Real.sqrt a) := by
  rw [show jsqrt (some a) = if a < 0 then none else some (Real.sqrt a) from rfl,
    if_neg (not_lt.2 h)]

@[simp] theorem jlog_none : jlog none = none := rfl

@[simp] theorem jlog_some_of_pos {a : ℝ} (h : 0 < a) :
    jlog (some a) = some (Real.log a) := by
  rw [show jlog (some a) = if a ≤ 0 then none else some (Real.log a) from rfl,
    if_neg (not_le.2 h)]

@[simp] theorem jsin_some (a : ℝ) : jsin (some a) = some (Real.sin a) := rfl

@[simp] theorem jsin_none : jsin none = none := rfl

@[simp] theorem jcos_some (a : ℝ) : jcos (some a) = some (Real.cos a) := rfl

@[simp] theorem jcos_none : jcos none = none := rfl

theorem jlt_some_some (a b : ℝ) : jlt (some a) (some b) = decide (a < b) := rfl

@[simp] theorem jlt_none_left (b : JsNum) : jlt none b = false := by
  cases b <;> rfl

@[simp] theorem jlt_none_right (a : JsNum) : jlt a none = false := by
  cases a <;> rfl

@[simp] theorem jlt_eq_true_of {a b : ℝ} (h : a < b) :
    jlt (some a) (some b) = true := by
  rw [jlt_some_some, decide_eq_true_eq]
  exact h

@[simp] theorem jlt_eq_false_of {a b : ℝ} (h : b ≤ a) :
    jlt (some a) (some b) = false := by
  rw [jlt_some_some, decide_eq_false_iff_not]
  exact not_lt.2 h

theorem jle_some_some (a b : ℝ) : jle (some a) (some b) = decide (a ≤ b) := rfl

@[simp] theorem jle_none_left (b : JsNum) : jle none b = false := by
  cases b <;> rfl

@[simp] theorem jle_none_right (a : JsNum) : jle a none = false := by
  cases a <;> rfl

@[simp] theorem jle_eq_true_of {a b : ℝ} (h : a ≤ b) :
    jle (some a) (some b) = true := by
  rw [jle_some_some, decide_eq_true_eq]
  exact h

@[simp] theorem jle_eq_false_of {a b : ℝ} (h : b < a) :
    jle (some a) (some b) = false := by
  rw [jle_some_some, decide_eq_false_iff_not]
  exact not_le.2 h

@[simp] theorem isFin_jadd (a b : JsNum) : isFin (a + b) = (isFin a && isFin b) := by
  cases a <;> cases b <;> rfl

@[simp] theorem isFin_jsub (a b : JsNum) : isFin (a - b) = (isFin a && isFin b) := by
  cases a <;> cases b <;> rfl

@[simp] theorem isFin_jmul (a b : JsNum) : isFin (a * b) = (isFin a && isFin b) := by
  cases a <;> cases b <;> rfl

@[simp] theorem isFin_jneg (a : JsNum) : isFin (-a) = isFin a := by
  cases a <;> rfl

@[simp] theorem isFin_jsin (a : JsNum) : isFin (jsin a) = isFin a := by
  cases a <;> rfl

@[simp] theorem isFin_jcos (a : JsNum) : isFin (jcos a) = isFin a := by
  cases a <;> rfl

@[simp] theorem isFin_jabs (a : JsNum) : isFin (jabs a) = isFin a := by
  cases a <;> rfl

/-! Lemmas about the stability guards. -/

theorem LorenzSystem.lorenz_safePos_finite : LorenzSystem.safePos.IsFinite :=
  ⟨rfl, rfl, rfl⟩

theorem LorenzSystem.lorenz_applyGuard_finite (v : JVec3) :
    (LorenzSystem.applyGuard v).IsFinite := by
  unfold LorenzSystem.applyGuard
  split
  · exact LorenzSystem.lorenz_safePos_finite
  · rename_i h
    rw [Bool.not_eq_true] at h
    unfold LorenzSystem.guardCond at h
    simp only [Bool.or_eq_false_iff, Bool.not_eq_false'] at h
    exact ⟨h.1.1.1, h.1.1.2, h.1.2⟩

theorem RosslerSystem.rossler_safePos_finite : RosslerSystem.safePos.IsFinite :=
  ⟨rfl, rfl, rfl⟩

theorem RosslerSystem.rossler_applyGuard_finite (v : JVec3) :
    (RosslerSystem.applyGuard v).IsFinite := by
  unfold RosslerSystem.applyGuard
  split
  · exact RosslerSystem.rossler_safePos_finite
  · rename_i h
    rw [Bool.not_eq_true] at h
    unfold RosslerSystem.guardCond at h
    simp only [Bool.or_eq_false_iff, Bool.not_eq_false'] at h
    exact ⟨h.1.1.1, h.1.1.2, h.1.2⟩

theorem DoublePendulumSystem.safeState_finite :
    DoublePendulumSystem.safeState.IsFinite :=
  ⟨rfl, rfl, rfl, rfl⟩

theorem DoublePendulumSystem.pend_applyGuard_finite (s : PendulumState) :
    (DoublePendulumSystem.applyGuard s).IsFinite := by
  unfold DoublePendulumSystem.applyGuard
  split
  · exact DoublePendulumSystem.safeState_finite
  · rename_i h
    rw [Bool.not_eq_true] at h
    unfold DoublePendulumSystem.guardCond at h
    simp only [Bool.or_eq_false_iff, Bool.not_eq_false'] at h
    exact ⟨h.1.1.1.1.1, h.1.1.1.1.2, h.1.1.1.2, h.1.1.2⟩

/-! Definitional decompositions of `step`. -/

theorem LorenzSystem.lorenz_step_position (sys : LorenzSystem) (speed : JsNum) :
    (sys.step speed).position
      = LorenzSystem.applyGuard
          (LorenzSystem.rk4Position sys.params (jn LorenzSystem.dt0 * speed) sys.position) :=
  rfl

theorem LorenzSystem.lorenz_step_points (sys : LorenzSystem) (speed : JsNum) :
    (sys.step speed).points = sys.points ++ [(sys.step speed).position] :=
  rfl

theorem LorenzSystem.lorenz_step_params (sys : LorenzSystem) (speed : JsNum) :
    (sys.step speed).params = sys.params :=
  rfl

theorem RosslerSystem.rossler_step_position (sys : RosslerSystem) (speed : JsNum) :
    (sys.step speed).position
      = RosslerSystem.applyGuard
          (RosslerSystem.rk4Position sys.params (jn RosslerSystem.dt0 * speed) sys.position) :=
  rfl

theorem RosslerSystem.rossler_step_points (sys : RosslerSystem) (speed : JsNum) :
    (sys.step speed).points = sys.points ++ [(sys.step speed).position] :=
  rfl

theorem RosslerSystem.rossler_step_params (sys : RosslerSystem) (speed : JsNum) :
    (sys.step speed).params = sys.params :=
  rfl

theorem DoublePendulumSystem.step_state (sys : DoublePendulumSystem) (speed : JsNum) :
    (sys.step speed).state
      = DoublePendulumSystem.applyGuard
          (DoublePendulumSystem.rk4State sys.params (jn DoublePendulumSystem.dt0 * speed) sys.state) :=
  rfl

theorem DoublePendulumSystem.pend_step_points (sys : DoublePendulumSystem) (speed : JsNum) :
    (sys.step speed).points
      = sys.points
        ++ [DoublePendulumSystem.toTrailPoint
              (DoublePendulumSystem.calculatePositions sys.params (sys.step speed).state)] :=
  rfl

theorem DoublePendulumSystem.step_positions (sys : DoublePendulumSystem) (speed : JsNum) :
    (sys.step speed).positions
      = sys.positions
        ++ [DoublePendulumSystem.calculatePositions sys.params (sys.step speed).state] :=
  rfl

theorem DoublePendulumSystem.pend_step_params (sys : DoublePendulumSystem) (speed : JsNum) :
    (sys.step speed).params = sys.params :=
  rfl

/-! Lemmas about `trimTrail`. -/

theorem LorenzSystem.lorenz_trimTrail_points (sys : LorenzSystem) (k : ℕ) :
    (sys.trimTrail k).points = sys.points.drop (sys.points.length - k) := by
  unfold LorenzSystem.trimTrail
  split
  · rfl
  · rename_i h
    rw [Nat.sub_eq_zero_of_le (not_lt.1 h), List.drop_zero]

theorem LorenzSystem.lorenz_trimTrail_length (sys : LorenzSystem) (k : ℕ) :
    (sys.trimTrail k).points.length = min sys.points.length k := by
  rw [LorenzSystem.lorenz_trimTrail_points, List.length_drop]
  omega

theorem LorenzSystem.lorenz_trimTrail_of_le {sys : LorenzSystem} {k : ℕ}
    (h : sys.points.length ≤ k) : sys.trimTrail k = sys := by
  unfold LorenzSystem.trimTrail
  rw [if_neg (not_lt.2 h)]

theorem RosslerSystem.rossler_trimTrail_points (sys : RosslerSystem) (k : ℕ) :
    (sys.trimTrail k).points = sys.points.drop (sys.points.length - k) := by
  unfold RosslerSystem.trimTrail
  split
  · rfl
  · rename_i h
    rw [Nat.sub_eq_zero_of_le (not_lt.1 h), List.drop_zero]

theorem RosslerSystem.rossler_trimTrail_length (sys : RosslerSystem) (k : ℕ) :
    (sys.trimTrail k).points.length = min sys.points.length k := by
  rw [RosslerSystem.rossler_trimTrail_points, List.length_drop]
  omega

theorem RosslerSystem.rossler_trimTrail_of_le {sys : RosslerSystem} {k : ℕ}
    (h : sys.points.length ≤ k) : sys.trimTrail k = sys := by
  unfold RosslerSystem.trimTrail
  rw [if_neg (not_lt.2 h)]

theorem DoublePendulumSystem.pend_trimTrail_points (sys : DoublePendulumSystem) (k : ℕ) :
    (sys.trimTrail k).points = sys.points.drop (sys.points.length - k) := by
  unfold DoublePendulumSystem.trimTrail
  split
  · rfl
  · rename_i h
    rw [Nat.sub_eq_zero_of_le (not_lt.1 h), List.drop_zero]

theorem DoublePendulumSystem.trimTrail_positions (sys : DoublePendulumSystem) (k : ℕ) :
    (sys.trimTrail k).positions = sys.positions.drop (sys.points.length - k) := by
  unfold DoublePendulumSystem.trimTrail
  split
  · rfl
  · rename_i h
    rw [Nat.sub_eq_zero_of_le (not_lt.1 h), List.drop_zero]

theorem DoublePendulumSystem.pend_trimTrail_length (sys : DoublePendulumSystem) (k : ℕ) :
    (sys.trimTrail k).points.length = min sys.points.length k := by
  rw [DoublePendulumSystem.pend_trimTrail_points, List.length_drop]
  omega

theorem DoublePendulumSystem.pend_trimTrail_of_le {sys : DoublePendulumSystem} {k : ℕ}
    (h : sys.points.length ≤ k) : sys.trimTrail k = sys := by
  unfold DoublePendulumSystem.trimTrail
  rw [if_neg (not_lt.2 h)]

/-- C5: for every system and every non-negative integer `k`, `trimTrail k`
keeps exactly the `min n k` most recently appended trail points in their
original order (the trail splits as a dropped front prefix followed by the
retained suffix), is idempotent once the length is at most `k`, and for the
pendulum trims the parallel `positions` sequence in lockstep to the same
length. -/
theorem C5_trimTrail :
    (∀ (sys : LorenzSystem) (k : ℕ),
        (sys.trimTrail k).points = sys.points.drop (sys.points.length - k) ∧
        (sys.trimTrail k).points.length = min sys.points.length k ∧
        sys.points.take (sys.points.length - k) ++ (sys.trimTrail k).points
          = sys.points ∧
        (sys.trimTrail k).trimTrail k = sys.trimTrail k) ∧
    (∀ (sys : RosslerSystem) (k : ℕ),
        (sys.trimTrail k).points = sys.points.drop (sys.points.length - k) ∧
        (sys.trimTrail k).points.length = min sys.points.length k ∧
        sys.points.take (sys.points.length - k) ++ (sys.trimTrail k).points
          = sys.points ∧
        (sys.trimTrail k).trimTrail k = sys.trimTrail k) ∧
    (∀ (sys : DoublePendulumSystem) (k : ℕ),
        (sys.trimTrail k).points = sys.points.drop (sys.points.length - k) ∧
        (sys.trimTrail k).points.length = min sys.points.length k ∧
        sys.points.take (sys.points.length - k) ++ (sys.trimTrail k).points
          = sys.points ∧
        (sys.trimTrail k).trimTrail k = sys.trimTrail k ∧
        (sys.trimTrail k).positions = sys.positions.drop (sys.points.length - k) ∧
        (sys.points.length = sys.positions.length →
          (sys.trimTrail k).positions.length = (sys.trimTrail k).points.length)) := by
  refine ⟨fun sys k => ?_, fun sys k => ?_, fun sys k => ?_⟩
  · refine ⟨LorenzSystem.lorenz_trimTrail_points sys k, LorenzSystem.lorenz_trimTrail_length sys k,
      ?_, ?_⟩
    · rw [LorenzSystem.lorenz_trimTrail_points, List.take_append_drop]
    · apply LorenzSystem.lorenz_trimTrail_of_le
      rw [LorenzSystem.lorenz_trimTrail_length]
      omega
  · refine ⟨RosslerSystem.rossler_trimTrail_points sys k, RosslerSystem.rossler_trimTrail_length sys k,
      ?_, ?_⟩
    · rw [RosslerSystem.rossler_trimTrail_points, List.take_append_drop]
    · apply RosslerSystem.rossler_trimTrail_of_le
      rw [RosslerSystem.rossler_trimTrail_length]
      omega
  · refine ⟨DoublePendulumSystem.pend_trimTrail_points sys k,
      DoublePendulumSystem.pend_trimTrail_length sys k, ?_, ?_, ?_, ?_⟩
    · rw [DoublePendulumSystem.pend_trimTrail_points, List.take_append_drop]
    · apply DoublePendulumSystem.pend_trimTrail_of_le
      rw [DoublePendulumSystem.pend_trimTrail_length]
      omega
    · exact DoublePendulumSystem.trimTrail_positions sys k
    · intro hlen
      rw [DoublePendulumSystem.trimTrail_positions,
        DoublePendulumSystem.pend_trimTrail_length, List.length_drop, hlen]
      omega

/-- C5 witness: the pendulum part at a concrete instance with one trail point
and `k = 5`, with the lockstep hypothesis discharged concretely. -/
theorem C5_trimTrail_witness :
    (pendulumNanSys.trimTrail 5).positions.length
      = (pendulumNanSys.trimTrail 5).points.length :=
  (C5_trimTrail.2.2 pendulumNanSys 5).2.2.2.2.2 rfl

/-- C6: for every system, `reset(s)` rebuilds the whole instance: the trail
holds exactly the derived position of `s` (the state itself for the
attractors; the second bob's Cartesian projection with `z = 0` for the
pendulum), the Lyapunov exponent, sum and count are zeroed, the tangent
vector and the previous-crossing trackers are reinitialized, and the Poincaré
history is emptied.  Parameters are kept. -/
theorem C6_reset :
    (∀ (sys : LorenzSystem) (p : JVec3),
        sys.reset p
          = { points := [p], position := p, params := sys.params,
              perturbation := ⟨jn 1, jn 0, jn 0⟩, lyapunovSum := jn 0,
              lyapunovSteps := 0, lyapunovExponent := jn 0,
              stepsSinceRenorm := 0, prevZ := p.z, prevDz := jn 0,
              poincarePoints := [] }) ∧
    (∀ (sys : RosslerSystem) (p : JVec3),
        sys.reset p
          = { points := [p], position := p, params := sys.params,
              perturbation := ⟨jn 1, jn 0, jn 0⟩, lyapunovSum := jn 0,
              lyapunovSteps := 0, lyapunovExponent := jn 0,
              stepsSinceRenorm := 0, prevY := p.y, poincarePoints := [] }) ∧
    (∀ (sys : DoublePendulumSystem) (s : PendulumState),
        sys.reset s
          = { points := [DoublePendulumSystem.toTrailPoint
                (DoublePendulumSystem.calculatePositions sys.params s)],
              positions := [DoublePendulumSystem.calculatePositions sys.params s],
              state := s, params := sys.params,
              pertState := ⟨jn 1e-6, jn 0, jn 0, jn 0⟩, lyapunovSum := jn 0,
              lyapunovSteps := 0, lyapunovExponent := jn 0,
              stepsSinceRenorm := 0, prevTheta2 := s.theta2,
              poincarePoints := [] }) :=
  ⟨fun _ _ => rfl, fun _ _ => rfl, fun _ _ => rfl⟩

/-- C10: for every system, `updateParams` merges exactly the supplied fields
into the parameters (absent fields keep their previous values) and leaves
every other field of the instance unchanged. -/
theorem C10_updateParams :
    (∀ (sys : LorenzSystem) (q : LorenzParamsUpdate),
        (sys.updateParams q).params.sigma = q.sigma.getD sys.params.sigma ∧
        (sys.updateParams q).params.rho = q.rho.getD sys.params.rho ∧
        (sys.updateParams q).params.beta = q.beta.getD sys.params.beta ∧
        (sys.updateParams q).points = sys.points ∧
        (sys.updateParams q).position = sys.position ∧
        (sys.updateParams q).perturbation = sys.perturbation ∧
        (sys.updateParams q).lyapunovSum = sys.lyapunovSum ∧
        (sys.updateParams q).lyapunovSteps = sys.lyapunovSteps ∧
        (sys.updateParams q).lyapunovExponent = sys.lyapunovExponent ∧
        (sys.updateParams q).stepsSinceRenorm = sys.stepsSinceRenorm ∧
        (sys.updateParams q).prevZ = sys.prevZ ∧
        (sys.updateParams q).prevDz = sys.prevDz ∧
        (sys.updateParams q).poincarePoints = sys.poincarePoints) ∧
    (∀ (sys : RosslerSystem) (q : RosslerParamsUpdate),
        (sys.updateParams q).params.a = q.a.getD sys.params.a ∧
        (sys.updateParams q).params.b = q.b.getD sys.params.b ∧
        (sys.updateParams q).params.c = q.c.getD sys.params.c ∧
        (sys.updateParams q).points = sys.points ∧
        (sys.updateParams q).position = sys.position ∧
        (sys.updateParams q).perturbation = sys.perturbation ∧
        (sys.updateParams q).lyapunovSum = sys.lyapunovSum ∧
        (sys.updateParams q).lyapunovSteps = sys.lyapunovSteps ∧
        (sys.updateParams q).lyapunovExponent = sys.lyapunovExponent ∧
        (sys.updateParams q).stepsSinceRenorm = sys.stepsSinceRenorm ∧
        (sys.updateParams q).prevY = sys.prevY ∧
        (sys.updateParams q).poincarePoints = sys.poincarePoints) ∧
    (∀ (sys : DoublePendulumSystem) (q : DoublePendulumParamsUpdate),
        (sys.updateParams q).params.mass1 = q.mass1.getD sys.params.mass1 ∧
        (sys.updateParams q).params.mass2 = q.mass2.getD sys.params.mass2 ∧
        (sys.updateParams q).params.length1 = q.length1.getD sys.params.length1 ∧
        (sys.updateParams q).params.length2 = q.length2.getD sys.params.length2 ∧
        (sys.updateParams q).params.gravity = q.gravity.getD sys.params.gravity ∧
        (sys.updateParams q).params.damping = q.damping.getD sys.params.damping ∧
        (sys.updateParams q).points = sys.points ∧
        (sys.updateParams q).positions = sys.positions ∧
        (sys.updateParams q).state = sys.state ∧
        (sys.updateParams q).pertState = sys.pertState ∧
        (sys.updateParams q).lyapunovSum = sys.lyapunovSum ∧
        (sys.updateParams q).lyapunovSteps = sys.lyapunovSteps ∧
        (sys.updateParams q).lyapunovExponent = sys.lyapunovExponent ∧
        (sys.updateParams q).stepsSinceRenorm = sys.stepsSinceRenorm ∧
        (sys.updateParams q).prevTheta2 = sys.prevTheta2 ∧
        (sys.updateParams q).poincarePoints = sys.poincarePoints) :=
  ⟨fun _ _ => ⟨rfl, rfl, rfl, rfl, rfl, rfl, rfl, rfl, rfl, rfl, rfl, rfl, rfl⟩,
   fun _ _ => ⟨rfl, rfl, rfl, rfl, rfl, rfl, rfl, rfl, rfl, rfl, rfl, rfl⟩,
   fun _ _ => ⟨rfl, rfl, rfl, rfl, rfl, rfl, rfl, rfl, rfl, rfl, rfl, rfl, rfl,
     rfl, rfl, rfl⟩⟩

/-! Finiteness preservation, per public method. -/

theorem optJsFin_getD {o : Option JsNum} {d : JsNum} (ho : optJsFin o)
    (hd : isFin d = true) : isFin (o.getD d) = true := by
  cases o with
  | none => exact hd
  | some v => exact ho

theorem LorenzSystem.lorenz_step_FinInv {sys : LorenzSystem} (h : sys.FinInv)
    (speed : JsNum) : (sys.step speed).FinInv := by
  obtain ⟨hpts, _, hpar⟩ := h
  refine ⟨?_, ?_, ?_⟩
  · rw [LorenzSystem.lorenz_step_points]
    intro v hv
    rcases List.mem_append.1 hv with h1 | h2
    · exact hpts v h1
    · rw [List.mem_singleton] at h2
      rw [h2, LorenzSystem.lorenz_step_position]
      exact LorenzSystem.lorenz_applyGuard_finite _
  · rw [LorenzSystem.lorenz_step_position]
    exact LorenzSystem.lorenz_applyGuard_finite _
  · rw [LorenzSystem.lorenz_step_params]
    exact hpar

theorem LorenzSystem.lorenz_reset_FinInv {sys : LorenzSystem} (hpar : sys.params.IsFinite)
    {p : JVec3} (hp : p.IsFinite) : (sys.reset p).FinInv := by
  refine ⟨?_, hp, hpar⟩
  intro v hv
  rw [show (sys.reset p).points = [p] from rfl, List.mem_singleton] at hv
  rw [hv]
  exact hp

theorem LorenzSystem.lorenz_updateParams_FinInv {sys : LorenzSystem} (h : sys.FinInv)
    {q : LorenzParamsUpdate} (hq : optJsFin q.sigma ∧ optJsFin q.rho ∧ optJsFin q.beta) :
    (sys.updateParams q).FinInv := by
  obtain ⟨hpts, hpos, hpar⟩ := h
  exact ⟨hpts, hpos,
    optJsFin_getD hq.1 hpar.1, optJsFin_getD hq.2.1 hpar.2.1,
    optJsFin_getD hq.2.2 hpar.2.2⟩

theorem LorenzSystem.lorenz_trimTrail_FinInv {sys : LorenzSystem} (h : sys.FinInv)
    (k : ℕ) : (sys.trimTrail k).FinInv := by
  obtain ⟨hpts, hpos, hpar⟩ := h
  unfold LorenzSystem.trimTrail
  split
  · exact ⟨fun v hv => hpts v (List.drop_subset _ _ hv), hpos, hpar⟩
  · exact ⟨hpts, hpos, hpar⟩

theorem LorenzSystem.lorenz_perturb_FinInv {sys : LorenzSystem} (h : sys.FinInv)
    {amount r1 r2 r3 : JsNum} (ha : isFin amount = true) (h1 : isFin r1 = true)
    (h2 : isFin r2 = true) (h3 : isFin r3 = true) :
    (sys.perturb amount r1 r2 r3).FinInv := by
  obtain ⟨hpts, hpos, hpar⟩ := h
  refine ⟨hpts, ?_, hpar⟩
  refine ⟨?_, ?_, ?_⟩ <;>
    simp [LorenzSystem.perturb, JVec3.IsFinite, ha, h1, h2, h3,
      hpos.1, hpos.2.1, hpos.2.2]

theorem LorenzSystem.lorenz_applyOp_FinInv {sys : LorenzSystem} (h : sys.FinInv)
    {op : LorenzSystem.Op} (hop : LorenzSystem.OpFin op) :
    (sys.applyOp op).FinInv := by
  cases op with
  | step speed => exact LorenzSystem.lorenz_step_FinInv h speed
  | reset p => exact LorenzSystem.lorenz_reset_FinInv h.2.2 hop
  | updateParams q => exact LorenzSystem.lorenz_updateParams_FinInv h hop
  | trimTrail k => exact LorenzSystem.lorenz_trimTrail_FinInv h k
  | perturb a r1 r2 r3 =>
      exact LorenzSystem.lorenz_perturb_FinInv h hop.1 hop.2.1 hop.2.2.1 hop.2.2.2

theorem LorenzSystem.lorenz_run_FinInv {sys : LorenzSystem} (h : sys.FinInv)
    {ops : List LorenzSystem.Op} (hops : ∀ op ∈ ops, LorenzSystem.OpFin op) :
    (sys.run ops).FinInv := by
  induction ops generalizing sys with
  | nil => exact h
  | cons op rest ih =>
      rw [LorenzSystem.run, List.foldl_cons]
      exact ih (LorenzSystem.lorenz_applyOp_FinInv h (hops op (List.mem_cons_self op rest)))
        fun o ho => hops o (List.mem_cons_of_mem op ho)

theorem RosslerSystem.rossler_step_FinInv {sys : RosslerSystem} (h : sys.FinInv)
    (speed : JsNum) : (sys.step speed).FinInv := by
  obtain ⟨hpts, _, hpar⟩ := h
  refine ⟨?_, ?_, ?_⟩
  · rw [RosslerSystem.rossler_step_points]
    intro v hv
    rcases List.mem_append.1 hv with h1 | h2
    · exact hpts v h1
    · rw [List.mem_singleton] at h2
      rw [h2, RosslerSystem.rossler_step_position]
      exact RosslerSystem.rossler_applyGuard_finite _
  · rw [RosslerSystem.rossler_step_position]
    exact RosslerSystem.rossler_applyGuard_finite _
  · rw [RosslerSystem.rossler_step_params]
    exact hpar

theorem RosslerSystem.rossler_reset_FinInv {sys : RosslerSystem} (hpar : sys.params.IsFinite)
    {p : JVec3} (hp : p.IsFinite) : (sys.reset p).FinInv := by
  refine ⟨?_, hp, hpar⟩
  intro v hv
  rw [show (sys.reset p).points = [p] from rfl, List.mem_singleton] at hv
  rw [hv]
  exact hp

theorem RosslerSystem.rossler_updateParams_FinInv {sys : RosslerSystem} (h : sys.FinInv)
    {q : RosslerParamsUpdate} (hq : optJsFin q.a ∧ optJsFin q.b ∧ optJsFin q.c) :
    (sys.updateParams q).FinInv := by
  obtain ⟨hpts, hpos, hpar⟩ := h
  exact ⟨hpts, hpos,
    optJsFin_getD hq.1 hpar.1, optJsFin_getD hq.2.1 hpar.2.1,
    optJsFin_getD hq.2.2 hpar.2.2⟩

theorem RosslerSystem.rossler_trimTrail_FinInv {sys : RosslerSystem} (h : sys.FinInv)
    (k : ℕ) : (sys.trimTrail k).FinInv := by
  obtain ⟨hpts, hpos, hpar⟩ := h
  unfold RosslerSystem.trimTrail
  split
  · exact ⟨fun v hv => hpts v (List.drop_subset _ _ hv), hpos, hpar⟩
  · exact ⟨hpts, hpos, hpar⟩

theorem RosslerSystem.rossler_perturb_FinInv {sys : RosslerSystem} (h : sys.FinInv)
    {amount r1 r2 r3 : JsNum} (ha : isFin amount = true) (h1 : isFin r1 = true)
    (h2 : isFin r2 = true) (h3 : isFin r3 = true) :
    (sys.perturb amount r1 r2 r3).FinInv := by
  obtain ⟨hpts, hpos, hpar⟩ := h
  refine ⟨hpts, ?_, hpar⟩
  refine ⟨?_, ?_, ?_⟩ <;>
    simp [RosslerSystem.perturb, JVec3.IsFinite, ha, h1, h2, h3,
      hpos.1, hpos.2.1, hpos.2.2]

theorem RosslerSystem.rossler_applyOp_FinInv {sys : RosslerSystem} (h : sys.FinInv)
    {op : RosslerSystem.Op} (hop : RosslerSystem.OpFin op) :
    (sys.applyOp op).FinInv := by
  cases op with
  | step speed => exact RosslerSystem.rossler_step_FinInv h speed
  | reset p => exact RosslerSystem.rossler_reset_FinInv h.2.2 hop
  | updateParams q => exact RosslerSystem.rossler_updateParams_FinInv h hop
  | trimTrail k => exact RosslerSystem.rossler_trimTrail_FinInv h k
  | perturb a r1 r2 r3 =>
      exact RosslerSystem.rossler_perturb_FinInv h hop.1 hop.2.1 hop.2.2.1 hop.2.2.2

theorem RosslerSystem.rossler_run_FinInv {sys : RosslerSystem} (h : sys.FinInv)
    {ops : List RosslerSystem.Op} (hops : ∀ op ∈ ops, RosslerSystem.OpFin op) :
    (sys.run ops).FinInv := by
  induction ops generalizing sys with
  | nil => exact h
  | cons op rest ih =>
      rw [RosslerSystem.run, List.foldl_cons]
      exact ih (RosslerSystem.rossler_applyOp_FinInv h (hops op (List.mem_cons_self op rest)))
        fun o ho => hops o (List.mem_cons_of_mem op ho)

theorem DoublePendulumSystem.toTrailPoint_finite {p : DoublePendulumParams}
    {s : PendulumState} (hp : p.IsFinite) (hs : s.IsFinite) :
    (DoublePendulumSystem.toTrailPoint
      (DoublePendulumSystem.calculatePositions p s)).IsFinite := by
  obtain ⟨_, _, hl1, hl2, _, _⟩ := hp
  obtain ⟨h1, h2, _, _⟩ := hs
  refine ⟨?_, ?_, rfl⟩ <;>
    simp [DoublePendulumSystem.toTrailPoint, DoublePendulumSystem.calculatePositions,
      hl1, hl2, h1, h2]

theorem DoublePendulumSystem.pend_step_FinInv {sys : DoublePendulumSystem}
    (h : sys.FinInv) (speed : JsNum) : (sys.step speed).FinInv := by
  obtain ⟨hpts, _, hpar⟩ := h
  refine ⟨?_, ?_, ?_⟩
  · rw [DoublePendulumSystem.pend_step_points]
    intro v hv
    rcases List.mem_append.1 hv with h1 | h2
    · exact hpts v h1
    · rw [List.mem_singleton] at h2
      rw [h2]
      refine DoublePendulumSystem.toTrailPoint_finite hpar ?_
      rw [DoublePendulumSystem.step_state]
      exact DoublePendulumSystem.pend_applyGuard_finite _
  · rw [DoublePendulumSystem.step_state]
    exact DoublePendulumSystem.pend_applyGuard_finite _
  · rw [DoublePendulumSystem.pend_step_params]
    exact hpar

theorem DoublePendulumSystem.pend_reset_FinInv {sys : DoublePendulumSystem}
    (hpar : sys.params.IsFinite) {s : PendulumState} (hs : s.IsFinite) :
    (sys.reset s).FinInv := by
  refine ⟨?_, hs, hpar⟩
  intro v hv
  rw [show (sys.reset s).points
      = [DoublePendulumSystem.toTrailPoint
          (DoublePendulumSystem.calculatePositions sys.params s)] from rfl,
    List.mem_singleton] at hv
  rw [hv]
  exact DoublePendulumSystem.toTrailPoint_finite hpar hs

theorem DoublePendulumSystem.pend_updateParams_FinInv {sys : DoublePendulumSystem}
    (h : sys.FinInv) {q : DoublePendulumParamsUpdate}
    (hq : optJsFin q.mass1 ∧ optJsFin q.mass2 ∧ optJsFin q.length1 ∧
      optJsFin q.length2 ∧ optJsFin q.gravity ∧ optJsFin q.damping) :
    (sys.updateParams q).FinInv := by
  obtain ⟨hpts, hst, hpar⟩ := h
  exact ⟨hpts, hst,
    optJsFin_getD hq.1 hpar.1, optJsFin_getD hq.2.1 hpar.2.1,
    optJsFin_getD hq.2.2.1 hpar.2.2.1, optJsFin_getD hq.2.2.2.1 hpar.2.2.2.1,
    optJsFin_getD hq.2.2.2.2.1 hpar.2.2.2.2.1,
    optJsFin_getD hq.2.2.2.2.2 hpar.2.2.2.2.2⟩

theorem DoublePendulumSystem.pend_trimTrail_FinInv {sys : DoublePendulumSystem}
    (h : sys.FinInv) (k : ℕ) : (sys.trimTrail k).FinInv := by
  obtain ⟨hpts, hst, hpar⟩ := h
  unfold DoublePendulumSystem.trimTrail
  split
  · exact ⟨fun v hv => hpts v (List.drop_subset _ _ hv), hst, hpar⟩
  · exact ⟨hpts, hst, hpar⟩

theorem DoublePendulumSystem.pend_perturb_FinInv {sys : DoublePendulumSystem}
    (h : sys.FinInv) {amount r1 r2 r3 r4 : JsNum} (ha : isFin amount = true)
    (h1 : isFin r1 = true) (h2 : isFin r2 = true) (h3 : isFin r3 = true)
    (h4 : isFin r4 = true) : (sys.perturb amount r1 r2 r3 r4).FinInv := by
  obtain ⟨hpts, hst, hpar⟩ := h
  refine ⟨hpts, ?_, hpar⟩
  refine ⟨?_, ?_, ?_, ?_⟩ <;>
    simp [DoublePendulumSystem.perturb, PendulumState.IsFinite, ha, h1, h2, h3, h4,
      hst.1, hst.2.1, hst.2.2.1, hst.2.2.2]

theorem DoublePendulumSystem.pend_applyOp_FinInv {sys : DoublePendulumSystem}
    (h : sys.FinInv) {op : DoublePendulumSystem.Op}
    (hop : DoublePendulumSystem.OpFin op) : (sys.applyOp op).FinInv := by
  cases op with
  | step speed => exact DoublePendulumSystem.pend_step_FinInv h speed
  | reset s => exact DoublePendulumSystem.pend_reset_FinInv h.2.2 hop
  | updateParams q => exact DoublePendulumSystem.pend_updateParams_FinInv h hop
  | trimTrail k => exact DoublePendulumSystem.pend_trimTrail_FinInv h k
  | perturb a r1 r2 r3 r4 =>
      exact DoublePendulumSystem.pend_perturb_FinInv h hop.1 hop.2.1 hop.2.2.1
        hop.2.2.2.1 hop.2.2.2.2

theorem DoublePendulumSystem.pend_run_FinInv {sys : DoublePendulumSystem}
    (h : sys.FinInv) {ops : List DoublePendulumSystem.Op}
    (hops : ∀ op ∈ ops, DoublePendulumSystem.OpFin op) : (sys.run ops).FinInv := by
  induction ops generalizing sys with
  | nil => exact h
  | cons op rest ih =>
      rw [DoublePendulumSystem.run, List.foldl_cons]
      exact ih
        (DoublePendulumSystem.pend_applyOp_FinInv h (hops op (List.mem_cons_self op rest)))
        fun o ho => hops o (List.mem_cons_of_mem op ho)

/-- C1: for every system, starting from a finite initial state with finite
parameters and applying any sequence of public-method calls with finite
arguments (steps at finite speeds, finite resets, finite parameter updates,
trims, finite perturbations), every component of every trail point is finite
and the phase state is finite after every call — non-finite intermediate
values are intercepted by the stability guard and never surface. -/
theorem C1_trail_state_finite :
    (∀ (p0 : JVec3) (pa : LorenzParams) (ops : List LorenzSystem.Op),
        p0.IsFinite → pa.IsFinite → (∀ op ∈ ops, LorenzSystem.OpFin op) →
        ((LorenzSystem.init p0 pa).run ops).FinInv) ∧
    (∀ (p0 : JVec3) (pa : RosslerParams) (ops : List RosslerSystem.Op),
        p0.IsFinite → pa.IsFinite → (∀ op ∈ ops, RosslerSystem.OpFin op) →
        ((RosslerSystem.init p0 pa).run ops).FinInv) ∧
    (∀ (s0 : PendulumState) (pa : DoublePendulumParams)
        (ops : List DoublePendulumSystem.Op),
        s0.IsFinite → pa.IsFinite → (∀ op ∈ ops, DoublePendulumSystem.OpFin op) →
        ((DoublePendulumSystem.init s0 pa).run ops).FinInv) := by
  refine ⟨fun p0 pa ops hp hpa hops => ?_, fun p0 pa ops hp hpa hops => ?_,
    fun s0 pa ops hs hpa hops => ?_⟩
  · refine LorenzSystem.lorenz_run_FinInv ⟨?_, hp, hpa⟩ hops
    intro v hv
    rw [show (LorenzSystem.init p0 pa).points = [p0] from rfl,
      List.mem_singleton] at hv
    rw [hv]
    exact hp
  · refine RosslerSystem.rossler_run_FinInv ⟨?_, hp, hpa⟩ hops
    intro v hv
    rw [show (RosslerSystem.init p0 pa).points = [p0] from rfl,
      List.mem_singleton] at hv
    rw [hv]
    exact hp
  · refine DoublePendulumSystem.pend_run_FinInv ⟨?_, hs, hpa⟩ hops
    intro v hv
    rw [show (DoublePendulumSystem.init s0 pa).points
        = [DoublePendulumSystem.toTrailPoint
            (DoublePendulumSystem.calculatePositions pa s0)] from rfl,
      List.mem_singleton] at hv
    rw [hv]
    exact DoublePendulumSystem.toTrailPoint_finite hpa hs

/-- C1 witness: the Lorenz part at concrete inputs — classic coefficients and
one unit-speed step from `(1, 1, 1)` — with every finiteness hypothesis
discharged concretely. -/
theorem C1_trail_state_finite_witness :
    ((LorenzSystem.init ⟨jn 1, jn 1, jn 1⟩ ⟨jn 10, jn 28, jn (8 / 3)⟩).run
      [LorenzSystem.Op.step (jn 1)]).FinInv :=
  C1_trail_state_finite.1 ⟨jn 1, jn 1, jn 1⟩ ⟨jn 10, jn 28, jn (8 / 3)⟩
    [LorenzSystem.Op.step (jn 1)] ⟨rfl, rfl, rfl⟩ ⟨rfl, rfl, rfl⟩
    (by intro op hop
        rw [List.mem_singleton] at hop
        rw [hop]
        exact rfl)

/-! Lemmas about the Poincaré history. -/

theorem capAppend_eq {α : Type} (l : List α) (pt : α) (M : ℕ) :
    (if M < (l ++ [pt]).length then
        (l ++ [pt]).drop ((l ++ [pt]).length - M)
      else l ++ [pt])
      = (l ++ [pt]).drop ((l.length + 1) - M) := by
  rw [List.length_append, List.length_singleton]
  split
  · rfl
  · rename_i h
    rw [Nat.sub_eq_zero_of_le (not_lt.1 h), List.drop_zero]

theorem LorenzSystem.lorenz_step_poincarePoints (sys : LorenzSystem) (speed : JsNum) :
    (sys.step speed).poincarePoints
      = if LorenzSystem.poincareCond sys.prevDz
            ((sys.step speed).position.z - sys.prevZ)
            (sys.step speed).points.length then
          (if LorenzSystem.MAX_POINCARE
              < (sys.poincarePoints
                  ++ [((sys.step speed).position.x, (sys.step speed).position.y)]).length then
            (sys.poincarePoints
              ++ [((sys.step speed).position.x, (sys.step speed).position.y)]).drop
                ((sys.poincarePoints
                  ++ [((sys.step speed).position.x, (sys.step speed).position.y)]).length
                  - LorenzSystem.MAX_POINCARE)
          else
            sys.poincarePoints
              ++ [((sys.step speed).position.x, (sys.step speed).position.y)])
        else sys.poincarePoints :=
  rfl

theorem LorenzSystem.lorenz_step_poincare_cases (sys : LorenzSystem) (speed : JsNum) :
    (sys.step speed).poincarePoints = sys.poincarePoints ∨
    (sys.step speed).poincarePoints
      = (sys.poincarePoints
          ++ [((sys.step speed).position.x, (sys.step speed).position.y)]).drop
            ((sys.poincarePoints.length + 1) - LorenzSystem.MAX_POINCARE) := by
  rw [LorenzSystem.lorenz_step_poincarePoints]
  split
  · right
    exact capAppend_eq _ _ _
  · left
    rfl

theorem RosslerSystem.rossler_step_poincarePoints (sys : RosslerSystem) (speed : JsNum) :
    (sys.step speed).poincarePoints
      = if RosslerSystem.poincareCond sys.prevY (sys.step speed).position.y
            (sys.step speed).points.length then
          (if RosslerSystem.MAX_POINCARE
              < (sys.poincarePoints
                  ++ [((sys.step speed).position.x, (sys.step speed).position.z)]).length then
            (sys.poincarePoints
              ++ [((sys.step speed).position.x, (sys.step speed).position.z)]).drop
                ((sys.poincarePoints
                  ++ [((sys.step speed).position.x, (sys.step speed).position.z)]).length
                  - RosslerSystem.MAX_POINCARE)
          else
            sys.poincarePoints
              ++ [((sys.step speed).position.x, (sys.step speed).position.z)])
        else sys.poincarePoints :=
  rfl

theorem RosslerSystem.rossler_step_poincare_cases (sys : RosslerSystem) (speed : JsNum) :
    (sys.step speed).poincarePoints = sys.poincarePoints ∨
    (sys.step speed).poincarePoints
      = (sys.poincarePoints
          ++ [((sys.step speed).position.x, (sys.step speed).position.z)]).drop
            ((sys.poincarePoints.length + 1) - RosslerSystem.MAX_POINCARE) := by
  rw [RosslerSystem.rossler_step_poincarePoints]
  split
  · right
    exact capAppend_eq _ _ _
  · left
    rfl

theorem DoublePendulumSystem.pend_step_poincarePoints (sys : DoublePendulumSystem)
    (speed : JsNum) :
    (sys.step speed).poincarePoints
      = if DoublePendulumSystem.poincareCond sys.prevTheta2
            (sys.step speed).state.theta2 (sys.step speed).points.length then
          (if DoublePendulumSystem.MAX_POINCARE
              < (sys.poincarePoints
                  ++ [((sys.step speed).state.theta1, (sys.step speed).state.omega1)]).length then
            (sys.poincarePoints
              ++ [((sys.step speed).state.theta1, (sys.step speed).state.omega1)]).drop
                ((sys.poincarePoints
                  ++ [((sys.step speed).state.theta1, (sys.step speed).state.omega1)]).length
                  - DoublePendulumSystem.MAX_POINCARE)
          else
            sys.poincarePoints
              ++ [((sys.step speed).state.theta1, (sys.step speed).state.omega1)])
        else sys.poincarePoints :=
  rfl

theorem DoublePendulumSystem.pend_step_poincare_cases (sys : DoublePendulumSystem)
    (speed : JsNum) :
    (sys.step speed).poincarePoints = sys.poincarePoints ∨
    (sys.step speed).poincarePoints
      = (sys.poincarePoints
          ++ [((sys.step speed).state.theta1, (sys.step speed).state.omega1)]).drop
            ((sys.poincarePoints.length + 1) - DoublePendulumSystem.MAX_POINCARE) := by
  rw [DoublePendulumSystem.pend_step_poincarePoints]
  split
  · right
    exact capAppend_eq _ _ _
  · left
    rfl

theorem LorenzSystem.lorenz_trimTrail_poincarePoints (sys : LorenzSystem) (k : ℕ) :
    (sys.trimTrail k).poincarePoints = sys.poincarePoints := by
  unfold LorenzSystem.trimTrail
  split <;> rfl

theorem RosslerSystem.rossler_trimTrail_poincarePoints (sys : RosslerSystem) (k : ℕ) :
    (sys.trimTrail k).poincarePoints = sys.poincarePoints := by
  unfold RosslerSystem.trimTrail
  split <;> rfl

theorem DoublePendulumSystem.pend_trimTrail_poincarePoints (sys : DoublePendulumSystem)
    (k : ℕ) : (sys.trimTrail k).poincarePoints = sys.poincarePoints := by
  unfold DoublePendulumSystem.trimTrail
  split <;> rfl

/-- C7: the Poincaré history obeys the 5000 cap after every operation; a `step`
either leaves it unchanged or appends exactly one recorded pair, dropping only
the oldest entries when the cap would be exceeded; `trimTrail`, `updateParams`
and `perturb` never touch it; and only `reset` (or construction) empties it. -/
theorem C7_poincare :
    (∀ (sys : LorenzSystem) (speed : JsNum),
        ((sys.step speed).poincarePoints = sys.poincarePoints ∨
          (sys.step speed).poincarePoints
            = (sys.poincarePoints
                ++ [((sys.step speed).position.x, (sys.step speed).position.y)]).drop
                  ((sys.poincarePoints.length + 1) - LorenzSystem.MAX_POINCARE)) ∧
        (sys.poincarePoints.length ≤ 5000 →
          (sys.step speed).poincarePoints.length ≤ 5000)) ∧
    (∀ (sys : LorenzSystem) (k : ℕ) (q : LorenzParamsUpdate)
        (amount r1 r2 r3 : JsNum) (p : JVec3) (pa : LorenzParams),
        (sys.trimTrail k).poincarePoints = sys.poincarePoints ∧
        (sys.updateParams q).poincarePoints = sys.poincarePoints ∧
        (sys.perturb amount r1 r2 r3).poincarePoints = sys.poincarePoints ∧
        (sys.reset p).poincarePoints = [] ∧
        (LorenzSystem.init p pa).poincarePoints = []) ∧
    (∀ (sys : RosslerSystem) (speed : JsNum),
        ((sys.step speed).poincarePoints = sys.poincarePoints ∨
          (sys.step speed).poincarePoints
            = (sys.poincarePoints
                ++ [((sys.step speed).position.x, (sys.step speed).position.z)]).drop
                  ((sys.poincarePoints.length + 1) - RosslerSystem.MAX_POINCARE)) ∧
        (sys.poincarePoints.length ≤ 5000 →
          (sys.step speed).poincarePoints.length ≤ 5000)) ∧
    (∀ (sys : RosslerSystem) (k : ℕ) (q : RosslerParamsUpdate)
        (amount r1 r2 r3 : JsNum) (p : JVec3) (pa : RosslerParams),
        (sys.trimTrail k).poincarePoints = sys.poincarePoints ∧
        (sys.updateParams q).poincarePoints = sys.poincarePoints ∧
        (sys.perturb amount r1 r2 r3).poincarePoints = sys.poincarePoints ∧
        (sys.reset p).poincarePoints = [] ∧
        (RosslerSystem.init p pa).poincarePoints = []) ∧
    (∀ (sys : DoublePendulumSystem) (speed : JsNum),
        ((sys.step speed).poincarePoints = sys.poincarePoints ∨
          (sys.step speed).poincarePoints
            = (sys.poincarePoints
                ++ [((sys.step speed).state.theta1, (sys.step speed).state.omega1)]).drop
                  ((sys.poincarePoints.length + 1) - DoublePendulumSystem.MAX_POINCARE)) ∧
        (sys.poincarePoints.length ≤ 5000 →
          (sys.step speed).poincarePoints.length ≤ 5000)) ∧
    (∀ (sys : DoublePendulumSystem) (k : ℕ) (q : DoublePendulumParamsUpdate)
        (amount r1 r2 r3 r4 : JsNum) (s : PendulumState)
        (pa : DoublePendulumParams),
        (sys.trimTrail k).poincarePoints = sys.poincarePoints ∧
        (sys.updateParams q).poincarePoints = sys.poincarePoints ∧
        (sys.perturb amount r1 r2 r3 r4).poincarePoints = sys.poincarePoints ∧
        (sys.reset s).poincarePoints = [] ∧
        (DoublePendulumSystem.init s pa).poincarePoints = []) := by
  refine ⟨fun sys speed => ⟨LorenzSystem.lorenz_step_poincare_cases sys speed, ?_⟩,
    fun sys k q amount r1 r2 r3 p pa =>
      ⟨LorenzSystem.lorenz_trimTrail_poincarePoints sys k, rfl, rfl, rfl, rfl⟩,
    fun sys speed => ⟨RosslerSystem.rossler_step_poincare_cases sys speed, ?_⟩,
    fun sys k q amount r1 r2 r3 p pa =>
      ⟨RosslerSystem.rossler_trimTrail_poincarePoints sys k, rfl, rfl, rfl, rfl⟩,
    fun sys speed => ⟨DoublePendulumSystem.pend_step_poincare_cases sys speed, ?_⟩,
    fun sys k q amount r1 r2 r3 r4 s pa =>
      ⟨DoublePendulumSystem.pend_trimTrail_poincarePoints sys k, rfl, rfl, rfl, rfl⟩⟩
  · intro hlen
    rcases LorenzSystem.lorenz_step_poincare_cases sys speed with h | h
    · rw [h]
      exact hlen
    · rw [h, List.length_drop, List.length_append, List.length_singleton]
      have : LorenzSystem.MAX_POINCARE = 5000 := rfl
      omega
  · intro hlen
    rcases RosslerSystem.rossler_step_poincare_cases sys speed with h | h
    · rw [h]
      exact hlen
    · rw [h, List.length_drop, List.length_append, List.length_singleton]
      have : RosslerSystem.MAX_POINCARE = 5000 := rfl
      omega
  · intro hlen
    rcases DoublePendulumSystem.pend_step_poincare_cases sys speed with h | h
    · rw [h]
      exact hlen
    · rw [h, List.length_drop, List.length_append, List.length_singleton]
      have : DoublePendulumSystem.MAX_POINCARE = 5000 := rfl
      omega

/-- C7 witness: the Lorenz step bound at a concrete instance (classic
coefficients, unit speed), discharging the `≤ 5000` hypothesis on the empty
initial history. -/
theorem C7_poincare_witness :
    (lorenzClassic.step (jn 1)).poincarePoints.length ≤ 5000 :=
  (C7_poincare.1 lorenzClassic (jn 1)).2 (by simp [lorenzClassic, LorenzSystem.init])

/-! Concrete evaluation helpers for the guard counterexamples. -/

theorem lorenzGuardCond_big {x y z : ℝ} (h : 1e6 < |x|) :
    LorenzSystem.guardCond ⟨some x, some y, some z⟩ = true := by
  unfold LorenzSystem.guardCond
  rw [jabs_some, jlt_eq_true_of h]
  simp

theorem lorenzGuardCond_small {x y z : ℝ} (h : |x| ≤ 1e6) :
    LorenzSystem.guardCond ⟨some x, some y, some z⟩ = false := by
  unfold LorenzSystem.guardCond
  rw [jabs_some, jlt_eq_false_of h]
  simp

theorem rosslerGuardCond_big {x y z : ℝ} (h : 1e6 < |x|) :
    RosslerSystem.guardCond ⟨some x, some y, some z⟩ = true := by
  unfold RosslerSystem.guardCond
  rw [jabs_some, jlt_eq_true_of h]
  simp

theorem pendulumGuardCond_nan (s : PendulumState) (h : s.theta1 = none) :
    DoublePendulumSystem.guardCond s = true := by
  unfold DoublePendulumSystem.guardCond
  rw [h]
  simp

/-- The RK4 update of `lorenzC3Sys` is the identity: with zero coefficients all
derivatives vanish at `(2e6, 0, 0)`. -/
theorem lorenzC3_rk4 :
    LorenzSystem.rk4Position lorenzC3Sys.params (jn LorenzSystem.dt0 * jn 1)
      lorenzC3Sys.position = ⟨jn 2e6, jn 0, jn 0⟩ := by
  norm_num [lorenzC3Sys, LorenzSystem.init, LorenzSystem.rk4Position,
    LorenzSystem.derivatives, LorenzSystem.dt0, JVec3.mk.injEq]

/-- C3 counterexample: on `lorenzC3Sys` the RK4 update returns `(2e6, 0, 0)`,
the stability guard then fires, and the point appended to the trail is the
safe value `(1, 1, 1)` — not the RK4-updated position the claim promises. -/
theorem C3_counterexample :
    LorenzSystem.rk4Position lorenzC3Sys.params (jn LorenzSystem.dt0 * jn 1)
        lorenzC3Sys.position = ⟨jn 2e6, jn 0, jn 0⟩ ∧
    (lorenzC3Sys.step (jn 1)).points.getLast? = some LorenzSystem.safePos ∧
    LorenzSystem.safePos ≠ (⟨jn 2e6, jn 0, jn 0⟩ : JVec3) := by
  refine ⟨lorenzC3_rk4, ?_, ?_⟩
  · have hpos : (lorenzC3Sys.step (jn 1)).position = LorenzSystem.safePos := by
      rw [LorenzSystem.lorenz_step_position, lorenzC3_rk4]
      unfold LorenzSystem.applyGuard
      rw [lorenzGuardCond_big (by rw [abs_of_pos] <;> norm_num)]
      simp
    rw [LorenzSystem.lorenz_step_points, hpos, List.getLast?_concat]
  · intro h
    have := congrArg (fun v => v.x) h
    simp only [LorenzSystem.safePos] at this
    rw [Option.some.injEq] at this
    norm_num at this

/-- C3 (amended): each `step` first advances by RK4 with
`dt = baseDt * speed`, then runs the stability guard, and only then appends to
the trail; the appended point is derived from the post-guard state (so it is
the safe value, not the raw RK4 output, whenever the guard fires). -/
theorem C3_step_order :
    (∀ (sys : LorenzSystem) (speed : JsNum),
        (sys.step speed).position
          = LorenzSystem.applyGuard
              (LorenzSystem.rk4Position sys.params (jn LorenzSystem.dt0 * speed)
                sys.position) ∧
        (sys.step speed).points = sys.points ++ [(sys.step speed).position]) ∧
    (∀ (sys : RosslerSystem) (speed : JsNum),
        (sys.step speed).position
          = RosslerSystem.applyGuard
              (RosslerSystem.rk4Position sys.params (jn RosslerSystem.dt0 * speed)
                sys.position) ∧
        (sys.step speed).points = sys.points ++ [(sys.step speed).position]) ∧
    (∀ (sys : DoublePendulumSystem) (speed : JsNum),
        (sys.step speed).state
          = DoublePendulumSystem.applyGuard
              (DoublePendulumSystem.rk4State sys.params
                (jn DoublePendulumSystem.dt0 * speed) sys.state) ∧
        (sys.step speed).points
          = sys.points
            ++ [DoublePendulumSystem.toTrailPoint
                  (DoublePendulumSystem.calculatePositions sys.params
                    (sys.step speed).state)] ∧
        (sys.step speed).positions
          = sys.positions
            ++ [DoublePendulumSystem.calculatePositions sys.params
                  (sys.step speed).state]) :=
  ⟨fun sys speed => ⟨LorenzSystem.lorenz_step_position sys speed,
      LorenzSystem.lorenz_step_points sys speed⟩,
   fun sys speed => ⟨RosslerSystem.rossler_step_position sys speed,
      RosslerSystem.rossler_step_points sys speed⟩,
   fun sys speed => ⟨DoublePendulumSystem.step_state sys speed,
      DoublePendulumSystem.pend_step_points sys speed,
      DoublePendulumSystem.step_positions sys speed⟩⟩

/-- The RK4 update of `lorenzC2Sys`: `x` and `z` stay `0`, `y` decays from
`2e6` to about `1.98e6`, still far beyond the `1e6` threshold. -/
theorem lorenzC2_rk4 :
    LorenzSystem.rk4Position lorenzC2Sys.params (jn LorenzSystem.dt0 * jn 1)
      lorenzC2Sys.position = ⟨jn 0, jn 1980099.6675, jn 0⟩ := by
  norm_num [lorenzC2Sys, LorenzSystem.init, LorenzSystem.rk4Position,
    LorenzSystem.derivatives, LorenzSystem.dt0, JVec3.mk.injEq]

/-- C2 counterexample: after the RK4 update of `lorenzC2Sys` the `y` component
exceeds the magnitude threshold `1e6`, yet the state is not reset to the
canonical safe value — the guard only tests `|x|`. -/
theorem C2_counterexample :
    jlt (jn 1e6)
      (jabs (LorenzSystem.rk4Position lorenzC2Sys.params
        (jn LorenzSystem.dt0 * jn 1) lorenzC2Sys.position).y) = true ∧
    (lorenzC2Sys.step (jn 1)).position ≠ LorenzSystem.safePos := by
  constructor
  · rw [lorenzC2_rk4]
    rw [show (⟨jn 0, jn 1980099.6675, jn 0⟩ : JVec3).y = jn 1980099.6675 from rfl,
      jabs_some]
    exact jlt_eq_true_of (by rw [abs_of_pos] <;> norm_num)
  · rw [LorenzSystem.lorenz_step_position, lorenzC2_rk4]
    unfold LorenzSystem.applyGuard
    rw [lorenzGuardCond_small (by rw [abs_of_nonneg le_rfl]; norm_num),
      if_neg Bool.false_ne_true]
    intro h
    have := congrArg (fun v => v.x) h
    simp only [LorenzSystem.safePos] at this
    rw [Option.some.injEq] at this
    norm_num at this

/-- C2 (amended): for every system and every step, if after the RK4 update
some component is non-finite, or `|x| > 1e6` for the attractors, or
`|omega1| > 1e6` or `|omega2| > 1e6` for the pendulum — exactly the source's
guard condition — then the entire state is reset to the canonical safe value
before the step returns, and otherwise the RK4 state is kept unchanged. -/
theorem C2_guard_reset :
    (∀ (sys : LorenzSystem) (speed : JsNum),
        (LorenzSystem.guardCond
            (LorenzSystem.rk4Position sys.params (jn LorenzSystem.dt0 * speed)
              sys.position) = true →
          (sys.step speed).position = LorenzSystem.safePos) ∧
        (LorenzSystem.guardCond
            (LorenzSystem.rk4Position sys.params (jn LorenzSystem.dt0 * speed)
              sys.position) = false →
          (sys.step speed).position
            = LorenzSystem.rk4Position sys.params (jn LorenzSystem.dt0 * speed)
                sys.position)) ∧
    (∀ (sys : RosslerSystem) (speed : JsNum),
        (RosslerSystem.guardCond
            (RosslerSystem.rk4Position sys.params (jn RosslerSystem.dt0 * speed)
              sys.position) = true →
          (sys.step speed).position = RosslerSystem.safePos) ∧
        (RosslerSystem.guardCond
            (RosslerSystem.rk4Position sys.params (jn RosslerSystem.dt0 * speed)
              sys.position) = false →
          (sys.step speed).position
            = RosslerSystem.rk4Position sys.params (jn RosslerSystem.dt0 * speed)
                sys.position)) ∧
    (∀ (sys : DoublePendulumSystem) (speed : JsNum),
        (DoublePendulumSystem.guardCond
            (DoublePendulumSystem.rk4State sys.params
              (jn DoublePendulumSystem.dt0 * speed) sys.state) = true →
          (sys.step speed).state = DoublePendulumSystem.safeState) ∧
        (DoublePendulumSystem.guardCond
            (DoublePendulumSystem.rk4State sys.params
              (jn DoublePendulumSystem.dt0 * speed) sys.state) = false →
          (sys.step speed).state
            = DoublePendulumSystem.rk4State sys.params
                (jn DoublePendulumSystem.dt0 * speed) sys.state)) := by
  refine ⟨fun sys speed => ⟨fun h => ?_, fun h => ?_⟩,
    fun sys speed => ⟨fun h => ?_, fun h => ?_⟩,
    fun sys speed => ⟨fun h => ?_, fun h => ?_⟩⟩
  · rw [LorenzSystem.lorenz_step_position]
    unfold LorenzSystem.applyGuard
    rw [h]
    rfl
  · rw [LorenzSystem.lorenz_step_position]
    unfold LorenzSystem.applyGuard
    rw [h]
    rfl
  · rw [RosslerSystem.rossler_step_position]
    unfold RosslerSystem.applyGuard
    rw [h]
    rfl
  · rw [RosslerSystem.rossler_step_position]
    unfold RosslerSystem.applyGuard
    rw [h]
    rfl
  · rw [DoublePendulumSystem.step_state]
    unfold DoublePendulumSystem.applyGuard
    rw [h]
    rfl
  · rw [DoublePendulumSystem.step_state]
    unfold DoublePendulumSystem.applyGuard
    rw [h]
    rfl

/-- The RK4 update of `rosslerC2Sys`, exactly: `x` barely moves from `2e6`. -/
theorem rosslerC2_rk4 :
    RosslerSystem.rk4Position rosslerC2Sys.params (jn RosslerSystem.dt0 * jn 1)
      rosslerC2Sys.position
      = ⟨jn ((2399880001 : ℝ) / 1200), jn ((59999 : ℝ) / 3), jn 0⟩ := by
  norm_num [rosslerC2Sys, RosslerSystem.init, RosslerSystem.rk4Position,
    RosslerSystem.derivatives, RosslerSystem.dt0, JVec3.mk.injEq]

/-- The RK4 update of `pendulumNanSys` propagates the non-finite angle into
every component. -/
theorem pendulumNan_rk4 :
    DoublePendulumSystem.rk4State pendulumNanSys.params
      (jn DoublePendulumSystem.dt0 * jn 1) pendulumNanSys.state
      = ⟨none, none, none, none⟩ := by
  norm_num [pendulumNanSys, DoublePendulumSystem.rk4State,
    DoublePendulumSystem.stateDerivative, DoublePendulumSystem.accelerations,
    DoublePendulumSystem.addStates, DoublePendulumSystem.dt0,
    PendulumState.mk.injEq]

/-- C2 witness: the amended guard behavior at concrete triggering inputs for
all three systems. -/
theorem C2_guard_reset_witness :
    (lorenzC3Sys.step (jn 1)).position = LorenzSystem.safePos ∧
    (rosslerC2Sys.step (jn 1)).position = RosslerSystem.safePos ∧
    (pendulumNanSys.step (jn 1)).state = DoublePendulumSystem.safeState :=
  ⟨(C2_guard_reset.1 lorenzC3Sys (jn 1)).1
      (by rw [lorenzC3_rk4]
          exact lorenzGuardCond_big (by rw [abs_of_pos] <;> norm_num)),
   (C2_guard_reset.2.1 rosslerC2Sys (jn 1)).1
      (by rw [rosslerC2_rk4]
          exact rosslerGuardCond_big (by rw [abs_of_pos] <;> norm_num)),
   (C2_guard_reset.2.2 pendulumNanSys (jn 1)).1
      (by rw [pendulumNan_rk4]
          exact pendulumGuardCond_nan _ rfl)⟩

/-- C8 counterexample: with a strictly positive amount but all `Math.random()`
draws equal to `0.5` (a value `Math.random` can return), `perturb` changes no
state component at all. -/
theorem C8_counterexample :
    jlt (jn 0) (jn 1) = true ∧
    (lorenzC3Sys.perturb (jn 1) (jn 0.5) (jn 0.5) (jn 0.5)).position
      = lorenzC3Sys.position := by
  constructor
  · exact jlt_eq_true_of (by norm_num)
  · norm_num [lorenzC3Sys, LorenzSystem.init, LorenzSystem.perturb, JVec3.mk.injEq]

/-- C8 (amended): `perturb(amount)` adds `(r - 0.5) * amount * scale` to each
component — scale `2` for the attractors, `0.3` for the pendulum angles and
`3` for the pendulum angular velocities — so it never produces a non-finite
state from finite inputs, and it changes a component exactly when the amount
is nonzero and that component's random draw differs from `0.5`. -/
theorem C8_perturb :
    (∀ (sys : LorenzSystem) (a r1 r2 r3 x : ℝ),
        (sys.perturb (jn a) (jn r1) (jn r2) (jn r3)).position
          = ⟨sys.position.x + jn ((r1 - 0.5) * a * 2),
             sys.position.y + jn ((r2 - 0.5) * a * 2),
             sys.position.z + jn ((r3 - 0.5) * a * 2)⟩ ∧
        (sys.position.IsFinite →
          (sys.perturb (jn a) (jn r1) (jn r2) (jn r3)).position.IsFinite) ∧
        (sys.position.x = jn x → a ≠ 0 → r1 ≠ 0.5 →
          (sys.perturb (jn a) (jn r1) (jn r2) (jn r3)).position.x
            ≠ sys.position.x)) ∧
    (∀ (sys : RosslerSystem) (a r1 r2 r3 x : ℝ),
        (sys.perturb (jn a) (jn r1) (jn r2) (jn r3)).position
          = ⟨sys.position.x + jn ((r1 - 0.5) * a * 2),
             sys.position.y + jn ((r2 - 0.5) * a * 2),
             sys.position.z + jn ((r3 - 0.5) * a * 2)⟩ ∧
        (sys.position.IsFinite →
          (sys.perturb (jn a) (jn r1) (jn r2) (jn r3)).position.IsFinite) ∧
        (sys.position.x = jn x → a ≠ 0 → r1 ≠ 0.5 →
          (sys.perturb (jn a) (jn r1) (jn r2) (jn r3)).position.x
            ≠ sys.position.x)) ∧
    (∀ (sys : DoublePendulumSystem) (a r1 r2 r3 r4 t w : ℝ),
        (sys.perturb (jn a) (jn r1) (jn r2) (jn r3) (jn r4)).state
          = ⟨sys.state.theta1 + jn ((r1 - 0.5) * a * 0.3),
             sys.state.theta2 + jn ((r2 - 0.5) * a * 0.3),
             sys.state.omega1 + jn ((r3 - 0.5) * a * 3),
             sys.state.omega2 + jn ((r4 - 0.5) * a * 3)⟩ ∧
        (sys.state.IsFinite →
          (sys.perturb (jn a) (jn r1) (jn r2) (jn r3) (jn r4)).state.IsFinite) ∧
        (sys.state.theta1 = jn t → a ≠ 0 → r1 ≠ 0.5 →
          (sys.perturb (jn a) (jn r1) (jn r2) (jn r3) (jn r4)).state.theta1
            ≠ sys.state.theta1) ∧
        (sys.state.omega1 = jn w → a ≠ 0 → r3 ≠ 0.5 →
          (sys.perturb (jn a) (jn r1) (jn r2) (jn r3) (jn r4)).state.omega1
            ≠ sys.state.omega1)) := by
  have move : ∀ u v : ℝ, v ≠ 0 → ¬(jn u + jn v = jn u) := by
    intro u v hv h
    rw [jsNum_some_add_some, Option.some.injEq, add_right_eq_self] at h
    exact hv h
  refine ⟨fun sys a r1 r2 r3 x => ⟨rfl, fun hf => ?_, fun hx ha hr => ?_⟩,
    fun sys a r1 r2 r3 x => ⟨rfl, fun hf => ?_, fun hx ha hr => ?_⟩,
    fun sys a r1 r2 r3 r4 t w =>
      ⟨rfl, fun hf => ?_, fun hx ha hr => ?_, fun hx ha hr => ?_⟩⟩
  · exact ⟨by simp [LorenzSystem.perturb, hf.1], by simp [LorenzSystem.perturb, hf.2.1],
      by simp [LorenzSystem.perturb, hf.2.2]⟩
  · rw [show (sys.perturb (jn a) (jn r1) (jn r2) (jn r3)).position.x
        = sys.position.x + (jn r1 - jn 0.5) * jn a * jn 2 from rfl, hx]
    exact move x ((r1 - 0.5) * a * 2)
      (mul_ne_zero (mul_ne_zero (sub_ne_zero.2 hr) ha) two_ne_zero)
  · exact ⟨by simp [RosslerSystem.perturb, hf.1], by simp [RosslerSystem.perturb, hf.2.1],
      by simp [RosslerSystem.perturb, hf.2.2]⟩
  · rw [show (sys.perturb (jn a) (jn r1) (jn r2) (jn r3)).position.x
        = sys.position.x + (jn r1 - jn 0.5) * jn a * jn 2 from rfl, hx]
    exact move x ((r1 - 0.5) * a * 2)
      (mul_ne_zero (mul_ne_zero (sub_ne_zero.2 hr) ha) two_ne_zero)
  · exact ⟨by simp [DoublePendulumSystem.perturb, hf.1],
      by simp [DoublePendulumSystem.perturb, hf.2.1],
      by simp [DoublePendulumSystem.perturb, hf.2.2.1],
      by simp [DoublePendulumSystem.perturb, hf.2.2.2]⟩
  · rw [show (sys.perturb (jn a) (jn r1) (jn r2) (jn r3) (jn r4)).state.theta1
        = sys.state.theta1 + (jn r1 - jn 0.5) * jn a * jn 0.3 from rfl, hx]
    exact move t ((r1 - 0.5) * a * 0.3)
      (mul_ne_zero (mul_ne_zero (sub_ne_zero.2 hr) ha) (by norm_num))
  · rw [show (sys.perturb (jn a) (jn r1) (jn r2) (jn r3) (jn r4)).state.omega1
        = sys.state.omega1 + (jn r3 - jn 0.5) * jn a * jn 3 from rfl, hx]
    exact move w ((r3 - 0.5) * a * 3)
      (mul_ne_zero (mul_ne_zero (sub_ne_zero.2 hr) ha) three_ne_zero)

/-- C8 witness: the change guarantee at concrete inputs — amount `1`, first
draw `0.75` — for all three systems. -/
theorem C8_perturb_witness :
    (lorenzC3Sys.perturb (jn 1) (jn 0.75) (jn 0.5) (jn 0.5)).position.x
        ≠ lorenzC3Sys.position.x ∧
    (rosslerC2Sys.perturb (jn 1) (jn 0.75) (jn 0.5) (jn 0.5)).position.x
        ≠ rosslerC2Sys.position.x ∧
    (pendulumRenormSys.perturb (jn 1) (jn 0.75) (jn 0.5) (jn 0.5) (jn 0.5)).state.theta1
        ≠ pendulumRenormSys.state.theta1 :=
  ⟨(C8_perturb.1 lorenzC3Sys 1 0.75 0.5 0.5 2e6).2.2 rfl (by norm_num) (by norm_num),
   (C8_perturb.2.1 rosslerC2Sys 1 0.75 0.5 0.5 2e6).2.2 rfl (by norm_num) (by norm_num),
   (C8_perturb.2.2 pendulumRenormSys 1 0.75 0.5 0.5 0.5 0 0).2.2.1 rfl (by norm_num)
     (by norm_num)⟩

/-! Lemmas about the tangent norms and their rescaling. -/

theorem jsqrt_eq_some {a : JsNum} {n : ℝ} (h : jsqrt a = some n) :
    ∃ s : ℝ, a = some s ∧ 0 ≤ s ∧ n = Real.sqrt s := by
  cases a with
  | none => exact absurd h (by simp)
  | some s =>
      by_cases hs : s < 0
      · rw [show jsqrt (some s) = if s < 0 then none else some (Real.sqrt s) from rfl,
          if_pos hs] at h
        exact absurd h (by simp)
      · rw [jsqrt_some_of_nonneg (not_lt.1 hs), Option.some.injEq] at h
        exact ⟨s, rfl, not_lt.1 hs, h.symm⟩

theorem vec3Norm_eq_some {v : JVec3} {n : ℝ} (h : vec3Norm v = some n)
    (hpos : 0 < n) :
    ∃ x y z : ℝ, v = ⟨some x, some y, some z⟩ ∧
      0 < x * x + y * y + z * z ∧ n = Real.sqrt (x * x + y * y + z * z) := by
  obtain ⟨vx, vy, vz⟩ := v
  cases vx with
  | none => simp [vec3Norm] at h
  | some x =>
  cases vy with
  | none => simp [vec3Norm] at h
  | some y =>
  cases vz with
  | none => simp [vec3Norm] at h
  | some z =>
  rw [show vec3Norm ⟨some x, some y, some z⟩
      = jsqrt (some (x * x + y * y + z * z)) from rfl] at h
  obtain ⟨s, hs, _, hn⟩ := jsqrt_eq_some h
  rw [Option.some.injEq] at hs
  have hs0 : 0 < s := Real.sqrt_pos.1 (by rw [← hn]; exact hpos)
  exact ⟨x, y, z, rfl, by rw [hs]; exact hs0, by rw [hn, hs]⟩

theorem vec3Norm_rescaled {x y z n : ℝ}
    (hn : n = Real.sqrt (x * x + y * y + z * z))
    (hpos : 0 < x * x + y * y + z * z) :
    vec3Norm ⟨some (x / n), some (y / n), some (z / n)⟩ = some 1 := by
  have hn0 : 0 < n := by
    rw [hn]
    exact Real.sqrt_pos.2 hpos
  have hnn : n * n = x * x + y * y + z * z := by
    rw [hn]
    exact Real.mul_self_sqrt (le_of_lt hpos)
  have key : x / n * (x / n) + y / n * (y / n) + z / n * (z / n) = 1 := by
    have expand : x / n * (x / n) + y / n * (y / n) + z / n * (z / n)
        = (x * x + y * y + z * z) / (n * n) := by
      field_simp
    rw [expand, hnn, div_self (ne_of_gt hpos)]
  rw [show vec3Norm ⟨some (x / n), some (y / n), some (z / n)⟩
      = jsqrt (some (x / n * (x / n) + y / n * (y / n) + z / n * (z / n))) from rfl,
    key, jsqrt_some_of_nonneg zero_le_one, Real.sqrt_one]

theorem stateNorm_eq_some {v : PendulumState} {n : ℝ}
    (h : DoublePendulumSystem.stateNorm v = some n) (hpos : 0 < n) :
    ∃ a b c d : ℝ, v = ⟨some a, some b, some c, some d⟩ ∧
      0 < a * a + b * b + c * c + d * d ∧
      n = Real.sqrt (a * a + b * b + c * c + d * d) := by
  obtain ⟨v1, v2, v3, v4⟩ := v
  cases v1 with
  | none => simp [DoublePendulumSystem.stateNorm] at h
  | some a =>
  cases v2 with
  | none => simp [DoublePendulumSystem.stateNorm] at h
  | some b =>
  cases v3 with
  | none => simp [DoublePendulumSystem.stateNorm] at h
  | some c =>
  cases v4 with
  | none => simp [DoublePendulumSystem.stateNorm] at h
  | some d =>
  rw [show DoublePendulumSystem.stateNorm ⟨some a, some b, some c, some d⟩
      = jsqrt (some (a * a + b * b + c * c + d * d)) from rfl] at h
  obtain ⟨s, hs, _, hn⟩ := jsqrt_eq_some h
  rw [Option.some.injEq] at hs
  have hs0 : 0 < s := Real.sqrt_pos.1 (by rw [← hn]; exact hpos)
  exact ⟨a, b, c, d, rfl, by rw [hs]; exact hs0, by rw [hn, hs]⟩

theorem stateNorm_rescaled {a b c d n : ℝ}
    (hn : n = Real.sqrt (a * a + b * b + c * c + d * d))
    (hpos : 0 < a * a + b * b + c * c + d * d) :
    DoublePendulumSystem.stateNorm
      ⟨some (a / n), some (b / n), some (c / n), some (d / n)⟩ = some 1 := by
  have hn0 : 0 < n := by
    rw [hn]
    exact Real.sqrt_pos.2 hpos
  have hnn : n * n = a * a + b * b + c * c + d * d := by
    rw [hn]
    exact Real.mul_self_sqrt (le_of_lt hpos)
  have key : a / n * (a / n) + b / n * (b / n) + c / n * (c / n) + d / n * (d / n)
      = 1 := by
    have expand : a / n * (a / n) + b / n * (b / n) + c / n * (c / n) + d / n * (d / n)
        = (a * a + b * b + c * c + d * d) / (n * n) := by
      field_simp
    rw [expand, hnn, div_self (ne_of_gt hpos)]
  rw [show DoublePendulumSystem.stateNorm
      ⟨some (a / n), some (b / n), some (c / n), some (d / n)⟩
      = jsqrt (some (a / n * (a / n) + b / n * (b / n) + c / n * (c / n)
          + d / n * (d / n))) from rfl,
    key, jsqrt_some_of_nonneg zero_le_one, Real.sqrt_one]

theorem jdiv_some_some_of_ne (a : ℝ) {b : ℝ} (h : b ≠ 0) :
    jdiv (some a) (some b) = some (a / b) := by
  rw [show jdiv (some a) (some b) = if b = 0 then none else some (a / b) from rfl,
    if_neg h]

theorem LorenzSystem.lorenz_step_renorm (sys : LorenzSystem) (speed : JsNum)
    (h1 : LorenzSystem.RENORM_INTERVAL ≤ sys.stepsSinceRenorm + 1) (n : ℝ)
    (hn : vec3Norm (LorenzSystem.tangentEuler sys.params
        (LorenzSystem.applyGuard (LorenzSystem.rk4Position sys.params
          (jn LorenzSystem.dt0 * speed) sys.position))
        sys.perturbation (jn LorenzSystem.dt0 * speed)) = some n)
    (hpos : 0 < n) :
    (sys.step speed).lyapunovSum = sys.lyapunovSum + jlog (some n) ∧
    (sys.step speed).lyapunovSteps = sys.lyapunovSteps + 1 ∧
    (sys.step speed).lyapunovExponent
      = jdiv (sys.lyapunovSum + jlog (some n))
          (jn (((sys.lyapunovSteps + 1 : ℕ) : ℝ)
            * (LorenzSystem.RENORM_INTERVAL : ℝ) * LorenzSystem.dt0)) ∧
    (sys.step speed).perturbation
      = ⟨jdiv (LorenzSystem.tangentEuler sys.params
            (LorenzSystem.applyGuard (LorenzSystem.rk4Position sys.params
              (jn LorenzSystem.dt0 * speed) sys.position))
            sys.perturbation (jn LorenzSystem.dt0 * speed)).x (some n),
         jdiv (LorenzSystem.tangentEuler sys.params
            (LorenzSystem.applyGuard (LorenzSystem.rk4Position sys.params
              (jn LorenzSystem.dt0 * speed) sys.position))
            sys.perturbation (jn LorenzSystem.dt0 * speed)).y (some n),
         jdiv (LorenzSystem.tangentEuler sys.params
            (LorenzSystem.applyGuard (LorenzSystem.rk4Position sys.params
              (jn LorenzSystem.dt0 * speed) sys.position))
            sys.perturbation (jn LorenzSystem.dt0 * speed)).z (some n)⟩ ∧
    vec3Norm (sys.step speed).perturbation = some 1 ∧
    (sys.step speed).stepsSinceRenorm = 0 := by
  have hc : (jlt (jn 0) (vec3Norm (LorenzSystem.tangentEuler sys.params
      (LorenzSystem.applyGuard (LorenzSystem.rk4Position sys.params
        (jn LorenzSystem.dt0 * speed) sys.position))
      sys.perturbation (jn LorenzSystem.dt0 * speed)))
      && isFin (vec3Norm (LorenzSystem.tangentEuler sys.params
      (LorenzSystem.applyGuard (LorenzSystem.rk4Position sys.params
        (jn LorenzSystem.dt0 * speed) sys.position))
      sys.perturbation (jn LorenzSystem.dt0 * speed)))) = true := by
    rw [hn, jlt_eq_true_of hpos]
    rfl
  have hpert : (sys.step speed).perturbation
      = ⟨jdiv (LorenzSystem.tangentEuler sys.params
            (LorenzSystem.applyGuard (LorenzSystem.rk4Position sys.params
              (jn LorenzSystem.dt0 * speed) sys.position))
            sys.perturbation (jn LorenzSystem.dt0 * speed)).x (some n),
         jdiv (LorenzSystem.tangentEuler sys.params
            (LorenzSystem.applyGuard (LorenzSystem.rk4Position sys.params
              (jn LorenzSystem.dt0 * speed) sys.position))
            sys.perturbation (jn LorenzSystem.dt0 * speed)).y (some n),
         jdiv (LorenzSystem.tangentEuler sys.params
            (LorenzSystem.applyGuard (LorenzSystem.rk4Position sys.params
              (jn LorenzSystem.dt0 * speed) sys.position))
            sys.perturbation (jn LorenzSystem.dt0 * speed)).z (some n)⟩ := by
    simp only [LorenzSystem.step]
    rw [if_pos h1, if_pos hc, hn]
  have hunit : vec3Norm (sys.step speed).perturbation = some 1 := by
    obtain ⟨x, y, z, hv, hsum, hne⟩ := vec3Norm_eq_some hn hpos
    rw [hpert, hv]
    rw [show (⟨some x, some y, some z⟩ : JVec3).x = some x from rfl,
      show (⟨some x, some y, some z⟩ : JVec3).y = some y from rfl,
      show (⟨some x, some y, some z⟩ : JVec3).z = some z from rfl,
      jdiv_some_some_of_ne x (ne_of_gt hpos),
      jdiv_some_some_of_ne y (ne_of_gt hpos),
      jdiv_some_some_of_ne z (ne_of_gt hpos)]
    exact vec3Norm_rescaled hne hsum
  refine ⟨?_, ?_, ?_, hpert, hunit, ?_⟩
  · simp only [LorenzSystem.step]
    rw [if_pos h1, if_pos hc, hn]
  · simp only [LorenzSystem.step]
    rw [if_pos h1, if_pos hc]
  · simp only [LorenzSystem.step]
    rw [if_pos h1, if_pos hc, hn]
  · simp only [LorenzSystem.step]
    rw [if_pos h1, if_pos hc]

theorem LorenzSystem.lorenz_step_renorm_skip (sys : LorenzSystem) (speed : JsNum)
    (h1 : LorenzSystem.RENORM_INTERVAL ≤ sys.stepsSinceRenorm + 1)
    (hc : (jlt (jn 0) (vec3Norm (LorenzSystem.tangentEuler sys.params
        (LorenzSystem.applyGuard (LorenzSystem.rk4Position sys.params
          (jn LorenzSystem.dt0 * speed) sys.position))
        sys.perturbation (jn LorenzSystem.dt0 * speed)))
      && isFin (vec3Norm (LorenzSystem.tangentEuler sys.params
        (LorenzSystem.applyGuard (LorenzSystem.rk4Position sys.params
          (jn LorenzSystem.dt0 * speed) sys.position))
        sys.perturbation (jn LorenzSystem.dt0 * speed)))) = false) :
    (sys.step speed).lyapunovSum = sys.lyapunovSum ∧
    (sys.step speed).lyapunovSteps = sys.lyapunovSteps ∧
    (sys.step speed).lyapunovExponent = sys.lyapunovExponent ∧
    (sys.step speed).stepsSinceRenorm = 0 := by
  have hcn : ¬((jlt (jn 0) (vec3Norm (LorenzSystem.tangentEuler sys.params
      (LorenzSystem.applyGuard (LorenzSystem.rk4Position sys.params
        (jn LorenzSystem.dt0 * speed) sys.position))
      sys.perturbation (jn LorenzSystem.dt0 * speed)))
      && isFin (vec3Norm (LorenzSystem.tangentEuler sys.params
      (LorenzSystem.applyGuard (LorenzSystem.rk4Position sys.params
        (jn LorenzSystem.dt0 * speed) sys.position))
      sys.perturbation (jn LorenzSystem.dt0 * speed)))) = true) := by
    rw [hc]
    exact Bool.false_ne_true
  refine ⟨?_, ?_, ?_, ?_⟩ <;>
    · simp only [LorenzSystem.step]
      rw [if_pos h1, if_neg hcn]

theorem RosslerSystem.rossler_step_renorm (sys : RosslerSystem) (speed : JsNum)
    (h1 : RosslerSystem.RENORM_INTERVAL ≤ sys.stepsSinceRenorm + 1) (n : ℝ)
    (hn : vec3Norm (RosslerSystem.tangentEuler sys.params
        (RosslerSystem.applyGuard (RosslerSystem.rk4Position sys.params
          (jn RosslerSystem.dt0 * speed) sys.position))
        sys.perturbation (jn RosslerSystem.dt0 * speed)) = some n)
    (hpos : 0 < n) :
    (sys.step speed).lyapunovSum = sys.lyapunovSum + jlog (some n) ∧
    (sys.step speed).lyapunovSteps = sys.lyapunovSteps + 1 ∧
    (sys.step speed).lyapunovExponent
      = jdiv (sys.lyapunovSum + jlog (some n))
          (jn (((sys.lyapunovSteps + 1 : ℕ) : ℝ)
            * (RosslerSystem.RENORM_INTERVAL : ℝ) * RosslerSystem.dt0)) ∧
    (sys.step speed).perturbation
      = ⟨jdiv (RosslerSystem.tangentEuler sys.params
            (RosslerSystem.applyGuard (RosslerSystem.rk4Position sys.params
              (jn RosslerSystem.dt0 * speed) sys.position))
            sys.perturbation (jn RosslerSystem.dt0 * speed)).x (some n),
         jdiv (RosslerSystem.tangentEuler sys.params
            (RosslerSystem.applyGuard (RosslerSystem.rk4Position sys.params
              (jn RosslerSystem.dt0 * speed) sys.position))
            sys.perturbation (jn RosslerSystem.dt0 * speed)).y (some n),
         jdiv (RosslerSystem.tangentEuler sys.params
            (RosslerSystem.applyGuard (RosslerSystem.rk4Position sys.params
              (jn RosslerSystem.dt0 * speed) sys.position))
            sys.perturbation (jn RosslerSystem.dt0 * speed)).z (some n)⟩ ∧
    vec3Norm (sys.step speed).perturbation = some 1 ∧
    (sys.step speed).stepsSinceRenorm = 0 := by
  have hc : (jlt (jn 0) (vec3Norm (RosslerSystem.tangentEuler sys.params
      (RosslerSystem.applyGuard (RosslerSystem.rk4Position sys.params
        (jn RosslerSystem.dt0 * speed) sys.position))
      sys.perturbation (jn RosslerSystem.dt0 * speed)))
      && isFin (vec3Norm (RosslerSystem.tangentEuler sys.params
      (RosslerSystem.applyGuard (RosslerSystem.rk4Position sys.params
        (jn RosslerSystem.dt0 * speed) sys.position))
      sys.perturbation (jn RosslerSystem.dt0 * speed)))) = true := by
    rw [hn, jlt_eq_true_of hpos]
    rfl
  have hpert : (sys.step speed).perturbation
      = ⟨jdiv (RosslerSystem.tangentEuler sys.params
            (RosslerSystem.applyGuard (RosslerSystem.rk4Position sys.params
              (jn RosslerSystem.dt0 * speed) sys.position))
            sys.perturbation (jn RosslerSystem.dt0 * speed)).x (some n),
         jdiv (RosslerSystem.tangentEuler sys.params
            (RosslerSystem.applyGuard (RosslerSystem.rk4Position sys.params
              (jn RosslerSystem.dt0 * speed) sys.position))
            sys.perturbation (jn RosslerSystem.dt0 * speed)).y (some n),
         jdiv (RosslerSystem.tangentEuler sys.params
            (RosslerSystem.applyGuard (RosslerSystem.rk4Position sys.params
              (jn RosslerSystem.dt0 * speed) sys.position))
            sys.perturbation (jn RosslerSystem.dt0 * speed)).z (some n)⟩ := by
    simp only [RosslerSystem.step]
    rw [if_pos h1, if_pos hc, hn]
  have hunit : vec3Norm (sys.step speed).perturbation = some 1 := by
    obtain ⟨x, y, z, hv, hsum, hne⟩ := vec3Norm_eq_some hn hpos
    rw [hpert, hv]
    rw [show (⟨some x, some y, some z⟩ : JVec3).x = some x from rfl,
      show (⟨some x, some y, some z⟩ : JVec3).y = some y from rfl,
      show (⟨some x, some y, some z⟩ : JVec3).z = some z from rfl,
      jdiv_some_some_of_ne x (ne_of_gt hpos),
      jdiv_some_some_of_ne y (ne_of_gt hpos),
      jdiv_some_some_of_ne z (ne_of_gt hpos)]
    exact vec3Norm_rescaled hne hsum
  refine ⟨?_, ?_, ?_, hpert, hunit, ?_⟩
  · simp only [RosslerSystem.step]
    rw [if_pos h1, if_pos hc, hn]
  · simp only [RosslerSystem.step]
    rw [if_pos h1, if_pos hc]
  · simp only [RosslerSystem.step]
    rw [if_pos h1, if_pos hc, hn]
  · simp only [RosslerSystem.step]
    rw [if_pos h1, if_pos hc]

theorem RosslerSystem.rossler_step_renorm_skip (sys : RosslerSystem) (speed : JsNum)
    (h1 : RosslerSystem.RENORM_INTERVAL ≤ sys.stepsSinceRenorm + 1)
    (hc : (jlt (jn 0) (vec3Norm (RosslerSystem.tangentEuler sys.params
        (RosslerSystem.applyGuard (RosslerSystem.rk4Position sys.params
          (jn RosslerSystem.dt0 * speed) sys.position))
        sys.perturbation (jn RosslerSystem.dt0 * speed)))
      && isFin (vec3Norm (RosslerSystem.tangentEuler sys.params
        (RosslerSystem.applyGuard (RosslerSystem.rk4Position sys.params
          (jn RosslerSystem.dt0 * speed) sys.position))
        sys.perturbation (jn RosslerSystem.dt0 * speed)))) = false) :
    (sys.step speed).lyapunovSum = sys.lyapunovSum ∧
    (sys.step speed).lyapunovSteps = sys.lyapunovSteps ∧
    (sys.step speed).lyapunovExponent = sys.lyapunovExponent ∧
    (sys.step speed).stepsSinceRenorm = 0 := by
  have hcn : ¬((jlt (jn 0) (vec3Norm (RosslerSystem.tangentEuler sys.params
      (RosslerSystem.applyGuard (RosslerSystem.rk4Position sys.params
        (jn RosslerSystem.dt0 * speed) sys.position))
      sys.perturbation (jn RosslerSystem.dt0 * speed)))
      && isFin (vec3Norm (RosslerSystem.tangentEuler sys.params
      (RosslerSystem.applyGuard (RosslerSystem.rk4Position sys.params
        (jn RosslerSystem.dt0 * speed) sys.position))
      sys.perturbation (jn RosslerSystem.dt0 * speed)))) = true) := by
    rw [hc]
    exact Bool.false_ne_true
  refine ⟨?_, ?_, ?_, ?_⟩ <;>
    · simp only [RosslerSystem.step]
      rw [if_pos h1, if_neg hcn]

theorem DoublePendulumSystem.pend_step_renorm (sys : DoublePendulumSystem)
    (speed : JsNum)
    (h1 : DoublePendulumSystem.RENORM_INTERVAL ≤ sys.stepsSinceRenorm + 1) (n : ℝ)
    (hn : DoublePendulumSystem.stateNorm (DoublePendulumSystem.tangentFD sys.params
        (DoublePendulumSystem.applyGuard (DoublePendulumSystem.rk4State sys.params
          (jn DoublePendulumSystem.dt0 * speed) sys.state))
        sys.pertState (jn DoublePendulumSystem.dt0 * speed)) = some n)
    (hpos : 0 < n) :
    (sys.step speed).lyapunovSum = sys.lyapunovSum + jlog (some n) ∧
    (sys.step speed).lyapunovSteps = sys.lyapunovSteps + 1 ∧
    (sys.step speed).lyapunovExponent
      = jdiv (sys.lyapunovSum + jlog (some n))
          (jn (((sys.lyapunovSteps + 1 : ℕ) : ℝ)
            * (DoublePendulumSystem.RENORM_INTERVAL : ℝ)
            * DoublePendulumSystem.dt0)) ∧
    (sys.step speed).pertState
      = ⟨jdiv (DoublePendulumSystem.tangentFD sys.params
            (DoublePendulumSystem.applyGuard (DoublePendulumSystem.rk4State sys.params
              (jn DoublePendulumSystem.dt0 * speed) sys.state))
            sys.pertState (jn DoublePendulumSystem.dt0 * speed)).theta1 (some n),
         jdiv (DoublePendulumSystem.tangentFD sys.params
            (DoublePendulumSystem.applyGuard (DoublePendulumSystem.rk4State sys.params
              (jn DoublePendulumSystem.dt0 * speed) sys.state))
            sys.pertState (jn DoublePendulumSystem.dt0 * speed)).theta2 (some n),
         jdiv (DoublePendulumSystem.tangentFD sys.params
            (DoublePendulumSystem.applyGuard (DoublePendulumSystem.rk4State sys.params
              (jn DoublePendulumSystem.dt0 * speed) sys.state))
            sys.pertState (jn DoublePendulumSystem.dt0 * speed)).omega1 (some n),
         jdiv (DoublePendulumSystem.tangentFD sys.params
            (DoublePendulumSystem.applyGuard (DoublePendulumSystem.rk4State sys.params
              (jn DoublePendulumSystem.dt0 * speed) sys.state))
            sys.pertState (jn DoublePendulumSystem.dt0 * speed)).omega2 (some n)⟩ ∧
    DoublePendulumSystem.stateNorm (sys.step speed).pertState = some 1 ∧
    (sys.step speed).stepsSinceRenorm = 0 := by
  have hc : (jlt (jn 0) (DoublePendulumSystem.stateNorm
      (DoublePendulumSystem.tangentFD sys.params
      (DoublePendulumSystem.applyGuard (DoublePendulumSystem.rk4State sys.params
        (jn DoublePendulumSystem.dt0 * speed) sys.state))
      sys.pertState (jn DoublePendulumSystem.dt0 * speed)))
      && isFin (DoublePendulumSystem.stateNorm
      (DoublePendulumSystem.tangentFD sys.params
      (DoublePendulumSystem.applyGuard (DoublePendulumSystem.rk4State sys.params
        (jn DoublePendulumSystem.dt0 * speed) sys.state))
      sys.pertState (jn DoublePendulumSystem.dt0 * speed)))) = true := by
    rw [hn, jlt_eq_true_of hpos]
    rfl
  have hpert : (sys.step speed).pertState
      = ⟨jdiv (DoublePendulumSystem.tangentFD sys.params
            (DoublePendulumSystem.applyGuard (DoublePendulumSystem.rk4State sys.params
              (jn DoublePendulumSystem.dt0 * speed) sys.state))
            sys.pertState (jn DoublePendulumSystem.dt0 * speed)).theta1 (some n),
         jdiv (DoublePendulumSystem.tangentFD sys.params
            (DoublePendulumSystem.applyGuard (DoublePendulumSystem.rk4State sys.params
              (jn DoublePendulumSystem.dt0 * speed) sys.state))
            sys.pertState (jn DoublePendulumSystem.dt0 * speed)).theta2 (some n),
         jdiv (DoublePendulumSystem.tangentFD sys.params
            (DoublePendulumSystem.applyGuard (DoublePendulumSystem.rk4State sys.params
              (jn DoublePendulumSystem.dt0 * speed) sys.state))
            sys.pertState (jn DoublePendulumSystem.dt0 * speed)).omega1 (some n),
         jdiv (DoublePendulumSystem.tangentFD sys.params
            (DoublePendulumSystem.applyGuard (DoublePendulumSystem.rk4State sys.params
              (jn DoublePendulumSystem.dt0 * speed) sys.state))
            sys.pertState (jn DoublePendulumSystem.dt0 * speed)).omega2 (some n)⟩ := by
    simp only [DoublePendulumSystem.step]
    rw [if_pos h1, if_pos hc, hn]
  have hunit : DoublePendulumSystem.stateNorm (sys.step speed).pertState = some 1 := by
    obtain ⟨a, b, c, d, hv, hsum, hne⟩ := stateNorm_eq_some hn hpos
    rw [hpert, hv]
    rw [show (⟨some a, some b, some c, some d⟩ : PendulumState).theta1 = some a from rfl,
      show (⟨some a, some b, some c, some d⟩ : PendulumState).theta2 = some b from rfl,
      show (⟨some a, some b, some c, some d⟩ : PendulumState).omega1 = some c from rfl,
      show (⟨some a, some b, some c, some d⟩ : PendulumState).omega2 = some d from rfl,
      jdiv_some_some_of_ne a (ne_of_gt hpos),
      jdiv_some_some_of_ne b (ne_of_gt hpos),
      jdiv_some_some_of_ne c (ne_of_gt hpos),
      jdiv_some_some_of_ne d (ne_of_gt hpos)]
    exact stateNorm_rescaled hne hsum
  refine ⟨?_, ?_, ?_, hpert, hunit, ?_⟩
  · simp only [DoublePendulumSystem.step]
    rw [if_pos h1, if_pos hc, hn]
  · simp only [DoublePendulumSystem.step]
    rw [if_pos h1, if_pos hc]
  · simp only [DoublePendulumSystem.step]
    rw [if_pos h1, if_pos hc, hn]
  · simp only [DoublePendulumSystem.step]
    rw [if_pos h1, if_pos hc]

theorem DoublePendulumSystem.pend_step_renorm_skip (sys : DoublePendulumSystem)
    (speed : JsNum)
    (h1 : DoublePendulumSystem.RENORM_INTERVAL ≤ sys.stepsSinceRenorm + 1)
    (hc : (jlt (jn 0) (DoublePendulumSystem.stateNorm
        (DoublePendulumSystem.tangentFD sys.params
        (DoublePendulumSystem.applyGuard (DoublePendulumSystem.rk4State sys.params
          (jn DoublePendulumSystem.dt0 * speed) sys.state))
        sys.pertState (jn DoublePendulumSystem.dt0 * speed)))
      && isFin (DoublePendulumSystem.stateNorm
        (DoublePendulumSystem.tangentFD sys.params
        (DoublePendulumSystem.applyGuard (DoublePendulumSystem.rk4State sys.params
          (jn DoublePendulumSystem.dt0 * speed) sys.state))
        sys.pertState (jn DoublePendulumSystem.dt0 * speed)))) = false) :
    (sys.step speed).lyapunovSum = sys.lyapunovSum ∧
    (sys.step speed).lyapunovSteps = sys.lyapunovSteps ∧
    (sys.step speed).lyapunovExponent = sys.lyapunovExponent ∧
    (sys.step speed).stepsSinceRenorm = 0 := by
  have hcn : ¬((jlt (jn 0) (DoublePendulumSystem.stateNorm
      (DoublePendulumSystem.tangentFD sys.params
      (DoublePendulumSystem.applyGuard (DoublePendulumSystem.rk4State sys.params
        (jn DoublePendulumSystem.dt0 * speed) sys.state))
      sys.pertState (jn DoublePendulumSystem.dt0 * speed)))
      && isFin (DoublePendulumSystem.stateNorm
      (DoublePendulumSystem.tangentFD sys.params
      (DoublePendulumSystem.applyGuard (DoublePendulumSystem.rk4State sys.params
        (jn DoublePendulumSystem.dt0 * speed) sys.state))
      sys.pertState (jn DoublePendulumSystem.dt0 * speed)))) = true) := by
    rw [hc]
    exact Bool.false_ne_true
  refine ⟨?_, ?_, ?_, ?_⟩ <;>
    · simp only [DoublePendulumSystem.step]
      rw [if_pos h1, if_neg hcn]

/-- First step of `lorenzClassic` at `NaN` speed: the RK4 output is entirely
non-finite, the guard pins the position at the safe value, and the tangent
vector becomes entirely non-finite. -/
theorem lorenzNan_step1 :
    lorenzClassic.step none
      = lorenzNanShape [⟨jn 1, jn 1, jn 1⟩, LorenzSystem.safePos] 1 := by
  norm_num [lorenzClassic, LorenzSystem.init, LorenzSystem.step,
    LorenzSystem.rk4Position, LorenzSystem.derivatives, LorenzSystem.applyGuard,
    LorenzSystem.guardCond, LorenzSystem.tangentEuler, LorenzSystem.jacobianApply,
    LorenzSystem.poincareCond, LorenzSystem.RENORM_INTERVAL, LorenzSystem.dt0,
    lorenzNanShape, LorenzSystem.safePos, noneV3, vec3Norm,
    LorenzSystem.mk.injEq, JVec3.mk.injEq]

/-- Every further step at `NaN` speed keeps the absorbed shape: position safe,
tangent non-finite, Lyapunov accumulators untouched — in particular the
renormalization test fails whenever it is due. -/
theorem lorenzNan_step (pts : List JVec3) (ssr : ℕ) :
    (lorenzNanShape pts ssr).step none
      = lorenzNanShape (pts ++ [LorenzSystem.safePos])
          (if LorenzSystem.RENORM_INTERVAL ≤ ssr + 1 then 0 else ssr + 1) := by
  by_cases h : LorenzSystem.RENORM_INTERVAL ≤ ssr + 1
  · rw [if_pos h]
    norm_num [h, lorenzNanShape, LorenzSystem.step, LorenzSystem.rk4Position,
      LorenzSystem.derivatives, LorenzSystem.applyGuard, LorenzSystem.guardCond,
      LorenzSystem.tangentEuler, LorenzSystem.jacobianApply,
      LorenzSystem.poincareCond, LorenzSystem.dt0, LorenzSystem.safePos, noneV3,
      vec3Norm, LorenzSystem.mk.injEq, JVec3.mk.injEq]
  · rw [if_neg h]
    norm_num [h, lorenzNanShape, LorenzSystem.step, LorenzSystem.rk4Position,
      LorenzSystem.derivatives, LorenzSystem.applyGuard, LorenzSystem.guardCond,
      LorenzSystem.tangentEuler, LorenzSystem.jacobianApply,
      LorenzSystem.poincareCond, LorenzSystem.dt0, LorenzSystem.safePos, noneV3,
      vec3Norm, LorenzSystem.mk.injEq, JVec3.mk.injEq]

/-- C4 counterexample: running `lorenzClassic` for 10 steps at `NaN` speed (a
value a caller can pass) reaches the 10th — a `RENORM_INTERVAL`-th — step with
`stepsSinceRenorm` reset to `0`, yet the renormalization count is still `0`
and the exponent still `0`: no log was accumulated, no count incremented, no
exponent recomputed, because the tangent norm was not positive and finite. -/
theorem C4_counterexample :
    (lorenzClassic.stepN none 10).lyapunovSteps = 0 ∧
    (lorenzClassic.stepN none 10).lyapunovExponent = jn 0 ∧
    (lorenzClassic.stepN none 10).stepsSinceRenorm = 0 := by
  have go : ∀ (pts : List JVec3) (ssr : ℕ), ssr + 1 ≤ 9 →
      (lorenzNanShape pts ssr).step none
        = lorenzNanShape (pts ++ [LorenzSystem.safePos]) (ssr + 1) := by
    intro pts ssr h
    rw [lorenzNan_step, if_neg (by
      rw [show LorenzSystem.RENORM_INTERVAL = 10 from rfl]
      omega)]
  have go10 : ∀ pts : List JVec3,
      (lorenzNanShape pts 9).step none
        = lorenzNanShape (pts ++ [LorenzSystem.safePos]) 0 := by
    intro pts
    rw [lorenzNan_step, if_pos (by
      rw [show LorenzSystem.RENORM_INTERVAL = 10 from rfl])]
  have expand : lorenzClassic.stepN none 10
      = (((((((((lorenzClassic.step none).step none).step none).step
          none).step none).step none).step none).step none).step none).step
          none := rfl
  rw [expand, lorenzNan_step1, go _ 1 (by omega), go _ 2 (by omega),
    go _ 3 (by omega), go _ 4 (by omega), go _ 5 (by omega), go _ 6 (by omega),
    go _ 7 (by omega), go _ 8 (by omega), go10 _]
  exact ⟨rfl, rfl, rfl⟩

/-- The tangent norm of `lorenzRenormSys` at speed `0` is exactly `1`. -/
theorem lorenzRenorm_norm :
    vec3Norm (LorenzSystem.tangentEuler lorenzRenormSys.params
      (LorenzSystem.applyGuard (LorenzSystem.rk4Position lorenzRenormSys.params
        (jn LorenzSystem.dt0 * jn 0) lorenzRenormSys.position))
      lorenzRenormSys.perturbation (jn LorenzSystem.dt0 * jn 0)) = some 1 := by
  norm_num [lorenzRenormSys, LorenzSystem.tangentEuler, LorenzSystem.jacobianApply,
    LorenzSystem.applyGuard, LorenzSystem.guardCond, LorenzSystem.rk4Position,
    LorenzSystem.derivatives, LorenzSystem.dt0, vec3Norm, Real.sqrt_one]

/-- The tangent norm of `rosslerRenormSys` at speed `0` is exactly `1`. -/
theorem rosslerRenorm_norm :
    vec3Norm (RosslerSystem.tangentEuler rosslerRenormSys.params
      (RosslerSystem.applyGuard (RosslerSystem.rk4Position rosslerRenormSys.params
        (jn RosslerSystem.dt0 * jn 0) rosslerRenormSys.position))
      rosslerRenormSys.perturbation (jn RosslerSystem.dt0 * jn 0)) = some 1 := by
  norm_num [rosslerRenormSys, RosslerSystem.tangentEuler, RosslerSystem.jacobianApply,
    RosslerSystem.applyGuard, RosslerSystem.guardCond, RosslerSystem.rk4Position,
    RosslerSystem.derivatives, RosslerSystem.dt0, vec3Norm, Real.sqrt_one]

/-- The tangent norm of `pendulumRenormSys` at speed `0` is `√(1e-12)`. -/
theorem pendulumRenorm_norm :
    DoublePendulumSystem.stateNorm (DoublePendulumSystem.tangentFD
      pendulumRenormSys.params
      (DoublePendulumSystem.applyGuard (DoublePendulumSystem.rk4State
        pendulumRenormSys.params (jn DoublePendulumSystem.dt0 * jn 0)
        pendulumRenormSys.state))
      pendulumRenormSys.pertState (jn DoublePendulumSystem.dt0 * jn 0))
      = some (Real.sqrt 1e-12) := by
  norm_num [pendulumRenormSys, DoublePendulumSystem.tangentFD,
    DoublePendulumSystem.stateDerivative, DoublePendulumSystem.accelerations,
    DoublePendulumSystem.applyGuard, DoublePendulumSystem.guardCond,
    DoublePendulumSystem.rk4State, DoublePendulumSystem.addStates,
    DoublePendulumSystem.dt0, DoublePendulumSystem.epsFD,
    DoublePendulumSystem.stateNorm]

/-- The renormalization test fails on `lorenzNanShape [] 9` because the tangent
vector is entirely non-finite. -/
theorem lorenzNanTangent_cond :
    (jlt (jn 0) (vec3Norm (LorenzSystem.tangentEuler (lorenzNanShape [] 9).params
      (LorenzSystem.applyGuard (LorenzSystem.rk4Position (lorenzNanShape [] 9).params
        (jn LorenzSystem.dt0 * jn 0) (lorenzNanShape [] 9).position))
      (lorenzNanShape [] 9).perturbation (jn LorenzSystem.dt0 * jn 0)))
    && isFin (vec3Norm (LorenzSystem.tangentEuler (lorenzNanShape [] 9).params
      (LorenzSystem.applyGuard (LorenzSystem.rk4Position (lorenzNanShape [] 9).params
        (jn LorenzSystem.dt0 * jn 0) (lorenzNanShape [] 9).position))
      (lorenzNanShape [] 9).perturbation (jn LorenzSystem.dt0 * jn 0)))) = false := by
  norm_num [lorenzNanShape, noneV3, LorenzSystem.tangentEuler, vec3Norm]

/-- The renormalization test fails on `rosslerNanTangentSys`. -/
theorem rosslerNanTangent_cond :
    (jlt (jn 0) (vec3Norm (RosslerSystem.tangentEuler rosslerNanTangentSys.params
      (RosslerSystem.applyGuard (RosslerSystem.rk4Position rosslerNanTangentSys.params
        (jn RosslerSystem.dt0 * jn 0) rosslerNanTangentSys.position))
      rosslerNanTangentSys.perturbation (jn RosslerSystem.dt0 * jn 0)))
    && isFin (vec3Norm (RosslerSystem.tangentEuler rosslerNanTangentSys.params
      (RosslerSystem.applyGuard (RosslerSystem.rk4Position rosslerNanTangentSys.params
        (jn RosslerSystem.dt0 * jn 0) rosslerNanTangentSys.position))
      rosslerNanTangentSys.perturbation (jn RosslerSystem.dt0 * jn 0)))) = false := by
  norm_num [rosslerNanTangentSys, noneV3, RosslerSystem.tangentEuler, vec3Norm]

/-- The renormalization test fails on `pendulumNanTangentSys`. -/
theorem pendulumNanTangent_cond :
    (jlt (jn 0) (DoublePendulumSystem.stateNorm
      (DoublePendulumSystem.tangentFD pendulumNanTangentSys.params
      (DoublePendulumSystem.applyGuard (DoublePendulumSystem.rk4State
        pendulumNanTangentSys.params (jn DoublePendulumSystem.dt0 * jn 1)
        pendulumNanTangentSys.state))
      pendulumNanTangentSys.pertState (jn DoublePendulumSystem.dt0 * jn 1)))
    && isFin (DoublePendulumSystem.stateNorm
      (DoublePendulumSystem.tangentFD pendulumNanTangentSys.params
      (DoublePendulumSystem.applyGuard (DoublePendulumSystem.rk4State
        pendulumNanTangentSys.params (jn DoublePendulumSystem.dt0 * jn 1)
        pendulumNanTangentSys.state))
      pendulumNanTangentSys.pertState (jn DoublePendulumSystem.dt0 * jn 1)))) = false := by
  norm_num [pendulumNanTangentSys, DoublePendulumSystem.tangentFD,
    DoublePendulumSystem.stateNorm]

/-- C4 (amended): for every system, on every `RENORM_INTERVAL`-th step (10 for
the attractors, 20 for the pendulum), provided the tangent norm is positive
and finite, its natural log is added to the running sum, the renormalization
count is incremented, the tangent is rescaled to unit norm, and the exponent
is recomputed as `sum / (count * RENORM_INTERVAL * baseDt)` with `baseDt`
0.01 for the attractors and 0.005 for the pendulum; if the norm is not
positive and finite, the sum, count and exponent stay unchanged and only the
interval counter resets. -/
theorem C4_renormalization :
    (∀ (sys : LorenzSystem) (speed : JsNum) (n : ℝ),
        LorenzSystem.RENORM_INTERVAL ≤ sys.stepsSinceRenorm + 1 →
        vec3Norm (LorenzSystem.tangentEuler sys.params
          (LorenzSystem.applyGuard (LorenzSystem.rk4Position sys.params
            (jn LorenzSystem.dt0 * speed) sys.position))
          sys.perturbation (jn LorenzSystem.dt0 * speed)) = some n →
        0 < n →
        (sys.step speed).lyapunovSum = sys.lyapunovSum + jlog (some n) ∧
        (sys.step speed).lyapunovSteps = sys.lyapunovSteps + 1 ∧
        (sys.step speed).lyapunovExponent
          = jdiv (sys.lyapunovSum + jlog (some n))
              (jn (((sys.lyapunovSteps + 1 : ℕ) : ℝ)
                * (LorenzSystem.RENORM_INTERVAL : ℝ) * LorenzSystem.dt0)) ∧
        vec3Norm (sys.step speed).perturbation = some 1 ∧
        (sys.step speed).stepsSinceRenorm = 0) ∧
    (∀ (sys : LorenzSystem) (speed : JsNum),
        LorenzSystem.RENORM_INTERVAL ≤ sys.stepsSinceRenorm + 1 →
        (jlt (jn 0) (vec3Norm (LorenzSystem.tangentEuler sys.params
          (LorenzSystem.applyGuard (LorenzSystem.rk4Position sys.params
            (jn LorenzSystem.dt0 * speed) sys.position))
          sys.perturbation (jn LorenzSystem.dt0 * speed)))
        && isFin (vec3Norm (LorenzSystem.tangentEuler sys.params
          (LorenzSystem.applyGuard (LorenzSystem.rk4Position sys.params
            (jn LorenzSystem.dt0 * speed) sys.position))
          sys.perturbation (jn LorenzSystem.dt0 * speed)))) = false →
        (sys.step speed).lyapunovSum = sys.lyapunovSum ∧
        (sys.step speed).lyapunovSteps = sys.lyapunovSteps ∧
        (sys.step speed).lyapunovExponent = sys.lyapunovExponent ∧
        (sys.step speed).stepsSinceRenorm = 0) ∧
    (∀ (sys : RosslerSystem) (speed : JsNum) (n : ℝ),
        RosslerSystem.RENORM_INTERVAL ≤ sys.stepsSinceRenorm + 1 →
        vec3Norm (RosslerSystem.tangentEuler sys.params
          (RosslerSystem.applyGuard (RosslerSystem.rk4Position sys.params
            (jn RosslerSystem.dt0 * speed) sys.position))
          sys.perturbation (jn RosslerSystem.dt0 * speed)) = some n →
        0 < n →
        (sys.step speed).lyapunovSum = sys.lyapunovSum + jlog (some n) ∧
        (sys.step speed).lyapunovSteps = sys.lyapunovSteps + 1 ∧
        (sys.step speed).lyapunovExponent
          = jdiv (sys.lyapunovSum + jlog (some n))
              (jn (((sys.lyapunovSteps + 1 : ℕ) : ℝ)
                * (RosslerSystem.RENORM_INTERVAL : ℝ) * RosslerSystem.dt0)) ∧
        vec3Norm (sys.step speed).perturbation = some 1 ∧
        (sys.step speed).stepsSinceRenorm = 0) ∧
    (∀ (sys : RosslerSystem) (speed : JsNum),
        RosslerSystem.RENORM_INTERVAL ≤ sys.stepsSinceRenorm + 1 →
        (jlt (jn 0) (vec3Norm (RosslerSystem.tangentEuler sys.params
          (RosslerSystem.applyGuard (RosslerSystem.rk4Position sys.params
            (jn RosslerSystem.dt0 * speed) sys.position))
          sys.perturbation (jn RosslerSystem.dt0 * speed)))
        && isFin (vec3Norm (RosslerSystem.tangentEuler sys.params
          (RosslerSystem.applyGuard (RosslerSystem.rk4Position sys.params
            (jn RosslerSystem.dt0 * speed) sys.position))
          sys.perturbation (jn RosslerSystem.dt0 * speed)))) = false →
        (sys.step speed).lyapunovSum = sys.lyapunovSum ∧
        (sys.step speed).lyapunovSteps = sys.lyapunovSteps ∧
        (sys.step speed).lyapunovExponent = sys.lyapunovExponent ∧
        (sys.step speed).stepsSinceRenorm = 0) ∧
    (∀ (sys : DoublePendulumSystem) (speed : JsNum) (n : ℝ),
        DoublePendulumSystem.RENORM_INTERVAL ≤ sys.stepsSinceRenorm + 1 →
        DoublePendulumSystem.stateNorm (DoublePendulumSystem.tangentFD sys.params
          (DoublePendulumSystem.applyGuard (DoublePendulumSystem.rk4State sys.params
            (jn DoublePendulumSystem.dt0 * speed) sys.state))
          sys.pertState (jn DoublePendulumSystem.dt0 * speed)) = some n →
        0 < n →
        (sys.step speed).lyapunovSum = sys.lyapunovSum + jlog (some n) ∧
        (sys.step speed).lyapunovSteps = sys.lyapunovSteps + 1 ∧
        (sys.step speed).lyapunovExponent
          = jdiv (sys.lyapunovSum + jlog (some n))
              (jn (((sys.lyapunovSteps + 1 : ℕ) : ℝ)
                * (DoublePendulumSystem.RENORM_INTERVAL : ℝ)
                * DoublePendulumSystem.dt0)) ∧
        DoublePendulumSystem.stateNorm (sys.step speed).pertState = some 1 ∧
        (sys.step speed).stepsSinceRenorm = 0) ∧
    (∀ (sys : DoublePendulumSystem) (speed : JsNum),
        DoublePendulumSystem.RENORM_INTERVAL ≤ sys.stepsSinceRenorm + 1 →
        (jlt (jn 0) (DoublePendulumSystem.stateNorm
          (DoublePendulumSystem.tangentFD sys.params
          (DoublePendulumSystem.applyGuard (DoublePendulumSystem.rk4State sys.params
            (jn DoublePendulumSystem.dt0 * speed) sys.state))
          sys.pertState (jn DoublePendulumSystem.dt0 * speed)))
        && isFin (DoublePendulumSystem.stateNorm
          (DoublePendulumSystem.tangentFD sys.params
          (DoublePendulumSystem.applyGuard (DoublePendulumSystem.rk4State sys.params
            (jn DoublePendulumSystem.dt0 * speed) sys.state))
          sys.pertState (jn DoublePendulumSystem.dt0 * speed)))) = false →
        (sys.step speed).lyapunovSum = sys.lyapunovSum ∧
        (sys.step speed).lyapunovSteps = sys.lyapunovSteps ∧
        (sys.step speed).lyapunovExponent = sys.lyapunovExponent ∧
        (sys.step speed).stepsSinceRenorm = 0) := by
  refine ⟨fun sys speed n h1 hn hpos => ?_, fun sys speed h1 hc =>
      LorenzSystem.lorenz_step_renorm_skip sys speed h1 hc,
    fun sys speed n h1 hn hpos => ?_, fun sys speed h1 hc =>
      RosslerSystem.rossler_step_renorm_skip sys speed h1 hc,
    fun sys speed n h1 hn hpos => ?_, fun sys speed h1 hc =>
      DoublePendulumSystem.pend_step_renorm_skip sys speed h1 hc⟩
  · obtain ⟨a, b, c, _, e, f⟩ := LorenzSystem.lorenz_step_renorm sys speed h1 n hn hpos
    exact ⟨a, b, c, e, f⟩
  · obtain ⟨a, b, c, _, e, f⟩ := RosslerSystem.rossler_step_renorm sys speed h1 n hn hpos
    exact ⟨a, b, c, e, f⟩
  · obtain ⟨a, b, c, _, e, f⟩ := DoublePendulumSystem.pend_step_renorm sys speed h1 n hn hpos
    exact ⟨a, b, c, e, f⟩

/-- C4 witness: all six clauses instantiated at concrete systems one step
before a renormalization — unit tangent for the attractors, norm `1e-6`
tangent for the pendulum, and entirely non-finite tangents for the three skip
cases — with every hypothesis discharged concretely. -/
theorem C4_renormalization_witness :
    ((lorenzRenormSys.step (jn 0)).lyapunovSteps = 1 ∧
      vec3Norm (lorenzRenormSys.step (jn 0)).perturbation = some 1) ∧
    ((lorenzNanShape [] 9).step (jn 0)).lyapunovSteps = 0 ∧
    ((rosslerRenormSys.step (jn 0)).lyapunovSteps = 1 ∧
      vec3Norm (rosslerRenormSys.step (jn 0)).perturbation = some 1) ∧
    ((rosslerNanTangentSys.step (jn 0)).lyapunovSteps = 0) ∧
    ((pendulumRenormSys.step (jn 0)).lyapunovSteps = 1 ∧
      DoublePendulumSystem.stateNorm (pendulumRenormSys.step (jn 0)).pertState
        = some 1) ∧
    ((pendulumNanTangentSys.step (jn 1)).lyapunovSteps = 0) := by
  have hL := C4_renormalization.1 lorenzRenormSys (jn 0) 1
    (by norm_num [lorenzRenormSys, LorenzSystem.RENORM_INTERVAL])
    lorenzRenorm_norm one_pos
  have hLs := C4_renormalization.2.1 (lorenzNanShape [] 9) (jn 0)
    (by norm_num [lorenzNanShape, LorenzSystem.RENORM_INTERVAL])
    lorenzNanTangent_cond
  have hR := C4_renormalization.2.2.1 rosslerRenormSys (jn 0) 1
    (by norm_num [rosslerRenormSys, RosslerSystem.RENORM_INTERVAL])
    rosslerRenorm_norm one_pos
  have hRs := C4_renormalization.2.2.2.1 rosslerNanTangentSys (jn 0)
    (by norm_num [rosslerNanTangentSys, RosslerSystem.RENORM_INTERVAL])
    rosslerNanTangent_cond
  have hP := C4_renormalization.2.2.2.2.1 pendulumRenormSys (jn 0)
    (Real.sqrt 1e-12)
    (by norm_num [pendulumRenormSys, DoublePendulumSystem.RENORM_INTERVAL])
    pendulumRenorm_norm (Real.sqrt_pos.2 (by norm_num))
  have hPs := C4_renormalization.2.2.2.2.2 pendulumNanTangentSys (jn 1)
    (by norm_num [pendulumNanTangentSys, DoublePendulumSystem.RENORM_INTERVAL])
    pendulumNanTangent_cond
  exact ⟨⟨hL.2.1, hL.2.2.2.1⟩, hLs.2.1, ⟨hR.2.1, hR.2.2.2.1⟩, hRs.2.1,
    ⟨hP.2.1, hP.2.2.2.1⟩, hPs.2.1⟩
